import Mathlib

/-!
Verification development for the cirqit_dashboard attendance
reconciliation and scoring engine.

The definitions below are a shallow embedding of the Python/SQLite code:
每 SQLite tables become lists of records, SQL queries become list folds,
and the scripts' per-team procedures become pure functions on a `Store`.
Machine-level details that the claims do not touch (wall-clock
`recorded_at` timestamps, the FLOAT `member_attendance_rate` column) are
not modelled.  Python's per-process salted string hash is modelled as an
explicit function parameter, since its value is process state, not a
function of the inputs.
-/

namespace Cirqit

/-- A row of the `teams` table (database/schema.py, `_create_teams_table`). -/
structure Team where
  id : Nat
  name : String
  totalMembers : Nat
  coachId : Option Nat
  department : String
  isActive : Bool
  updatedAt : Nat
  deriving DecidableEq

/-- A row of the `members` table (database/schema.py, `_create_members_table`). -/
structure Member where
  id : Nat
  name : String
  department : String
  teamId : Nat
  isLeader : Bool
  isActive : Bool
  deriving DecidableEq

/-- A row of the `coaches` table (database/schema.py, `_create_coaches_table`). -/
structure Coach where
  id : Nat
  name : String
  department : String
  isActive : Bool
  deriving DecidableEq

/-- A row of the `events` table (database/schema.py, `_create_events_table`). -/
structure Event where
  id : Nat
  name : String
  memberPointsPerAttendance : Int
  coachPointsPerAttendance : Int
  isActive : Bool
  deriving DecidableEq

/-- A row of the `attendance` table (database/schema.py,
`_create_attendance_table`).  `memberId` and `coachId` are nullable; the
table's CHECK constraint requires at least one of them to be non-null. -/
structure AttendanceRecord where
  eventId : Nat
  memberId : Option Nat
  coachId : Option Nat
  attended : Bool
  pointsEarned : Int
  recordedBy : String
  deriving DecidableEq

/-- A row of the `bonus_points` table (database/schema.py). -/
structure BonusPoint where
  teamId : Nat
  points : Int
  reason : String
  awardedBy : String
  isActive : Bool
  deriving DecidableEq

/-- A row of the `audit_log` table (database/schema.py). -/
structure AuditEntry where
  tableName : String
  recordId : Nat
  action : String
  oldValues : String
  newValues : String
  changedBy : String
  deriving DecidableEq

/-- The whole SQLite database state. -/
structure Store where
  teams : List Team
  members : List Member
  coaches : List Coach
  events : List Event
  attendance : List AttendanceRecord
  bonusPoints : List BonusPoint
  auditLog : List AuditEntry
  deriving DecidableEq

/-! ## Canonical roster sort

Python's `sorted(team_members, key=lambda x: x[1])` (and the SQL
`ORDER BY m.name`) is a stable sort of `(member_id, member_name)` pairs
by name.  A stable sort by a fixed key has a unique result, so the
structural insertion sort below yields the same list. -/

/-- Lexicographic less-or-equal on code-point sequences — the string
order Python's sorted and SQLite's ORDER BY use for these names. -/
def charsLe : List Char → List Char → Bool
  | [], _ => true
  | _ :: _, [] => false
  | c :: cs, d :: ds =>
    if c.toNat < d.toNat then true
    else if d.toNat < c.toNat then false
    else charsLe cs ds

/-- Name comparison used by the canonical roster sort. -/
def nameLe (x y : String) : Bool :=
  charsLe x.data y.data

/-- Stable insertion of a `(id, name)` pair into a name-sorted list. -/
def insertByName (x : Nat × String) : List (Nat × String) → List (Nat × String)
  | [] => [x]
  | y :: ys => if nameLe x.2 y.2 then x :: y :: ys else y :: insertByName x ys

/-- Stable sort of a roster by member name, as `sorted(..., key=name)`
in fix_alliance_attendance.py line 179 and the `ORDER BY m.name` of
fix_fifth_member_distribution.py line 71. -/
def sortRoster : List (Nat × String) → List (Nat × String)
  | [] => []
  | x :: xs => insertByName x (sortRoster xs)

/-! ## Rotation-based distribution

fix_alliance_attendance.py lines 169-198: for one (team, event) pair
with aggregate count `K`, seed the rotation, pick the attendees starting
at `seed % roster_size` in the name-sorted roster (wrapping), and insert
one attendance row per roster member with `attended` set by membership
in the attendee list and 1 point for attendees, 0 otherwise. -/

/-- The attendee list of fix_alliance_attendance.py lines 173-187:
`start_index = seed % len(sorted_members)` and `K` picks at positions
`(start_index + i) % len(sorted_members)`.  Empty when `K = 0`. -/
def allianceAttending (team_members : List (Nat × String)) (K seed : Nat) :
    List (Nat × String) :=
  let sorted := sortRoster team_members
  if K > 0 then
    (List.range K).map (fun i =>
      sorted.getD ((seed % sorted.length + i) % sorted.length) (0, ""))
  else []

/-- The rows inserted by fix_alliance_attendance.py lines 189-198: one
row per roster member, `attended` by membership in the attendee list,
1 point if attending else 0. -/
def allianceDistribute (team_members : List (Nat × String)) (eid K seed : Nat) :
    List AttendanceRecord :=
  let attending := allianceAttending team_members K seed
  team_members.map (fun mp =>
    { eventId := eid
      memberId := some mp.1
      coachId := none
      attended := attending.contains mp
      pointsEarned := if attending.contains mp then 1 else 0
      recordedBy := "Fair Distribution System" })

/-- Default record used only as the supplied fallback of `List.getD`;
all accesses are at in-range indices. -/
def defaultRecord : AttendanceRecord :=
  { eventId := 0, memberId := none, coachId := none, attended := false
    pointsEarned := 0, recordedBy := "" }

/-! ## The v_team_scores view (database/schema.py lines 195-267) -/

/-- member_stats of v_team_scores (lines 230-240): per team, the summed
points_earned over every attendance row of the team's active members
(LEFT JOIN over all attendance rows, attended or not). -/
def memberPoints (s : Store) (teamId : Nat) : Int :=
  ((s.members.filter (fun m => m.isActive && m.teamId == teamId)).map
    (fun m => ((s.attendance.filter (fun a => a.memberId == some m.id)).map
      (fun a => a.pointsEarned)).sum)).sum

/-- coach_stats of v_team_scores (lines 243-253): per team, the linked
coach's summed points_earned over attended rows — the coach's own
total, attributed in full to the team (JOIN coaches ON t.coach_id,
JOIN attendance ON the coach id, WHERE attended). -/
def coachPoints (s : Store) (t : Team) : Int :=
  match t.coachId with
  | none => 0
  | some cid =>
    ((s.coaches.filter (fun c => c.id == cid)).map (fun c =>
      ((s.attendance.filter (fun a =>
        a.coachId == some c.id && a.attended)).map
        (fun a => a.pointsEarned)).sum)).sum

/-- bonus_stats of v_team_scores (lines 256-263): active bonus rows of
the team. -/
def bonusPointsOfTeam (s : Store) (teamId : Nat) : Int :=
  ((s.bonusPoints.filter (fun b => b.isActive && b.teamId == teamId)).map
    (fun b => b.points)).sum

/-- A coach's own total earned points: summed points_earned of the
coach's attended rows (the per-coach quantity computed by the
verification query of fix_coach_scoring.py lines 92-102). -/
def coachTotalPoints (s : Store) (cid : Nat) : Int :=
  ((s.attendance.filter (fun a => a.coachId == some cid && a.attended)).map
    (fun a => a.pointsEarned)).sum

/-- One output row of v_team_scores; final_score is the sum of the
three COALESCEd columns (schema.py line 223). -/
structure TeamScoreRow where
  teamId : Nat
  teamName : String
  memberPts : Int
  coachPts : Int
  bonusPts : Int
  finalScore : Int
  deriving DecidableEq

/-- The v_team_scores row of one team. -/
def teamScoreRow (s : Store) (t : Team) : TeamScoreRow :=
  { teamId := t.id
    teamName := t.name
    memberPts := memberPoints s t.id
    coachPts := coachPoints s t
    bonusPts := bonusPointsOfTeam s t.id
    finalScore := memberPoints s t.id + coachPoints s t +
      bonusPointsOfTeam s t.id }

/-- The v_team_scores view: one row per active team (WHERE
t.is_active = 1; the ORDER BY is presentation only). -/
def vTeamScores (s : Store) : List TeamScoreRow :=
  (s.teams.filter (fun t => t.isActive)).map (teamScoreRow s)

/-- get_team_scores of safe_team_rename.py lines 49-63: SELECT from
v_team_scores WHERE team_id = ?. -/
def getTeamScoresById (s : Store) (tid : Nat) : List TeamScoreRow :=
  (vTeamScores s).filter (fun r => r.teamId == tid)

/-- get_team_details of services/scoring.py: SELECT from v_team_scores
WHERE team_name = ?. -/
def getTeamScoresByName (s : Store) (name : String) : List TeamScoreRow :=
  (vTeamScores s).filter (fun r => r.teamName == name)

/-! ## SQLite insertion semantics for the attendance table -/

/-- Conflict test of the UNIQUE(event_id, member_id, coach_id)
constraint under SQLite semantics: two rows conflict only when every
indexed column pair is non-NULL and equal; a NULL member_id or
coach_id in either row makes the rows distinct (SQLite treats NULLs in
a unique index as pairwise distinct). -/
def uniqueConflict (a b : AttendanceRecord) : Bool :=
  a.eventId == b.eventId &&
  (match a.memberId, b.memberId with
   | some x, some y => x == y
   | _, _ => false) &&
  (match a.coachId, b.coachId with
   | some x, some y => x == y
   | _, _ => false)

/-- INSERT OR REPLACE: delete every conflicting row, then insert. -/
def insertOrReplace (s : Store) (r : AttendanceRecord) : Store :=
  { s with attendance :=
      s.attendance.filter (fun a => !(uniqueConflict a r)) ++ [r] }

/-! ## Event management service (services/event_management.py) -/

/-- record_member_attendance (event_management.py lines 158-193):
look up the event's member rate, return False untouched if the event
is missing, else INSERT OR REPLACE one row per (member, attended)
pair with the rate for attendees and 0 otherwise. -/
def record_member_attendance (s : Store) (eventId : Nat)
    (memberAttendances : List (Nat × Bool)) (recordedBy : String) :
    Bool × Store :=
  match s.events.find? (fun e => e.id == eventId) with
  | none => (false, s)
  | some e =>
    (true, memberAttendances.foldl (fun st p =>
      insertOrReplace st
        { eventId := eventId, memberId := some p.1, coachId := none
          attended := p.2
          pointsEarned := if p.2 then e.memberPointsPerAttendance else 0
          recordedBy := recordedBy }) s)

/-- The row record_coach_attendance writes for one (coach_id,
sessions_attended) pair: attended iff sessions > 0, points = sessions
times the event's coach rate. -/
def coachRow (eventId : Nat) (rate : Int) (recordedBy : String)
    (p : Nat × Int) : AttendanceRecord :=
  { eventId := eventId, memberId := none, coachId := some p.1
    attended := decide (p.2 > 0)
    pointsEarned := p.2 * rate
    recordedBy := recordedBy }

/-- record_coach_attendance (event_management.py lines 195-231):
look up the event's coach rate, return False untouched if the event is
missing, else INSERT OR REPLACE one row per (coach, sessions) pair. -/
def record_coach_attendance (s : Store) (eventId : Nat)
    (coachAttendances : List (Nat × Int)) (recordedBy : String) :
    Bool × Store :=
  match s.events.find? (fun e => e.id == eventId) with
  | none => (false, s)
  | some e =>
    (true, coachAttendances.foldl (fun st p =>
      insertOrReplace st
        (coachRow eventId e.coachPointsPerAttendance recordedBy p)) s)

/-! ## CSV attendance import (import_attendance.py) -/

/-- One row of the formatted attendance CSV. -/
structure RawAttendanceRow where
  eventId : Nat
  memberId : Option Nat
  coachId : Option Nat
  attended : Bool
  pointsEarned : Int
  recordedBy : String
  deriving DecidableEq

/-- One INSERT of import_attendance.py lines 32-52: a row violating
the CHECK constraint (both references NULL) or the UNIQUE constraint
raises sqlite3.Error, which is caught, reported and the row skipped. -/
def importStep (st : Store) (r : RawAttendanceRow) : Store :=
  let a : AttendanceRecord :=
    { eventId := r.eventId, memberId := r.memberId, coachId := r.coachId,
      attended := r.attended, pointsEarned := r.pointsEarned,
      recordedBy := r.recordedBy }
  if r.memberId = none ∧ r.coachId = none then st
  else if st.attendance.any (fun b => uniqueConflict b a) then st
  else { st with attendance := st.attendance ++ [a] }

/-- import_attendance_data (import_attendance.py lines 11-56): clear
existing attendance for the first row's event (skipped when the id is
0, the falsy Python check), then INSERT each row via importStep. -/
def import_attendance_data (s : Store) (rows : List RawAttendanceRow) :
    Store :=
  let s1 := match rows.head? with
    | some r0 =>
      if r0.eventId ≠ 0 then
        { s with attendance :=
            s.attendance.filter (fun a => !(a.eventId == r0.eventId)) }
      else s
    | none => s
  rows.foldl importStep s1

/-! ## Name-to-id dictionaries

The scripts build Python dicts from SELECT id, name rows; a duplicate
name would be overridden by the later row, so lookup is find? on the
reversed list. -/

def eventIdByName (s : Store) (name : String) : Option Nat :=
  (s.events.reverse.find? (fun e => e.name == name)).map (fun e => e.id)

def coachIdByName (s : Store) (name : String) : Option Nat :=
  (s.coaches.reverse.find? (fun c => c.name == name)).map (fun c => c.id)

/-! ## fix_fifth_member_distribution.py (per-team core, lines 66-134) -/

/-- The member query of fix_fifth_member_distribution.py lines 67-72:
active members of the named team as (id, name) pairs, ORDER BY name.
The JOIN on teams is modelled with an existence test; team ids are
primary keys so the two agree. -/
def activeTeamMembersSorted (s : Store) (teamName : String) :
    List (Nat × String) :=
  sortRoster ((s.members.filter (fun m =>
    m.isActive && s.teams.any (fun t =>
      t.id == m.teamId && t.name == teamName))).map
    (fun m => (m.id, m.name)))

/-- The DELETE subquery of fix_fifth_member_distribution.py lines
81-88: an attendance row is deleted when its member_id is the id of
some member (active or not) of the named team; a NULL member_id never
matches the IN clause. -/
def refsTeamMember (s : Store) (teamName : String)
    (a : AttendanceRecord) : Bool :=
  match a.memberId with
  | none => false
  | some mid => s.members.any (fun m => m.id == mid &&
      s.teams.any (fun t => t.id == m.teamId && t.name == teamName))

/-- The per-event insertion of fix_fifth_member_distribution.py lines
103-134: with aggregate count K > 0, start at
(seed + event_idx) % roster_size in the name-ordered roster and mark
min(K, roster_size) attendees, inserting one row per roster member;
with K = 0 insert an attended = false, 0-point row for every member. -/
def fifthEventRows (sortedMembers : List (Nat × String))
    (eid K seedVal eventIdx : Nat) : List AttendanceRecord :=
  if K > 0 then
    let start := (seedVal + eventIdx) % sortedMembers.length
    let attending := (List.range (min K sortedMembers.length)).map
      (fun i => sortedMembers.getD
        ((start + i) % sortedMembers.length) (0, ""))
    sortedMembers.map (fun mp =>
      { eventId := eid, memberId := some mp.1, coachId := none
        attended := attending.contains mp
        pointsEarned := if attending.contains mp then 1 else 0
        recordedBy := "Fair Distribution System" })
  else
    sortedMembers.map (fun mp =>
      { eventId := eid, memberId := some mp.1, coachId := none
        attended := false, pointsEarned := 0
        recordedBy := "Fair Distribution System" })

/-- The rows inserted by the per-team loop of
fix_fifth_member_distribution.py lines 91-134.  `pyHash` stands for
Python's builtin str hash, whose value is salted per process
(PYTHONHASHSEED), so it is an environment input of the embedding; the
script computes seed = hash(team_name + event_name) % 100000 and skips
an event whose name is absent from the events dict or whose id is
falsy; eventsData holds the per-event aggregate counts read from the
CSV. -/
def fifthGenRows (s : Store) (teamName : String)
    (eventsData : List (String × Nat)) (pyHash : String → Nat) :
    List AttendanceRecord :=
  (eventsData.enum.map (fun p =>
    match eventIdByName s p.2.1 with
    | none => []
    | some eid =>
      if eid = 0 then []
      else fifthEventRows (activeTeamMembersSorted s teamName) eid p.2.2
        (pyHash (teamName ++ p.2.1) % 100000) p.1)).flatten

/-- The per-team body of fix_fifth_member_distribution.py lines
66-134: skip unless the team has exactly 5 active members (line 75);
otherwise delete every attendance row referencing any member of the
team and insert the rotation-derived rows for the CSV events. -/
def fixTeamDistribution (s : Store) (teamName : String)
    (eventsData : List (String × Nat)) (pyHash : String → Nat) : Store :=
  if (activeTeamMembersSorted s teamName).length ≠ 5 then s
  else
    { s with attendance :=
        s.attendance.filter (fun a => !(refsTeamMember s teamName a)) ++
        fifthGenRows s teamName eventsData pyHash }

/-- The member ids marked attended in a store. -/
def attendedMemberIds (s : Store) : List Nat :=
  (s.attendance.filter (fun a => a.attended)).filterMap
    (fun a => a.memberId)

/-! ## safe_team_rename.py -/

/-- rename_team (safe_team_rename.py lines 65-139): require an active
team with the id; refuse a new name carried by an active team (the
script's check) or by any team row (the UNIQUE constraint on
teams.name makes the UPDATE raise IntegrityError, roll back and return
False); otherwise update only name and updated_at, and append the
audit row.  `now` is the CURRENT_TIMESTAMP value. -/
def rename_team (s : Store) (teamId : Nat) (newName : String)
    (now : Nat) : Bool × Store :=
  match s.teams.find? (fun t => t.id == teamId && t.isActive) with
  | none => (false, s)
  | some t0 =>
    if s.teams.any (fun t => t.name == newName && t.isActive) then
      (false, s)
    else if s.teams.any (fun t => t.name == newName) then (false, s)
    else
      (true,
        { s with
          teams := s.teams.map (fun t =>
            if t.id == teamId then
              { t with name := newName, updatedAt := now }
            else t)
          auditLog := s.auditLog ++
            [{ tableName := "teams", recordId := teamId
               action := "rename"
               oldValues := "name: " ++ t0.name
               newValues := "name: " ++ newName
               changedBy := "safe_team_rename.py" }] })

/-! ## fix_coach_scoring.py -/

/-- One row of the team-scores CSV restricted to what
fix_coach_scoring.py reads: the team name and the per-event
coaches_attended counts of the three TechSharing columns. -/
structure ScoreCsvRow where
  teamName : String
  counts : List (String × Nat)
  deriving DecidableEq

/-- One row of the teams-masterlist CSV as read by
fix_coach_scoring.py: team name and its Coach/Consultant name. -/
structure MasterRow where
  teamName : String
  coachName : String
  deriving DecidableEq

/-- Steps 3-4 of fix_coach_scoring.py (lines 36-66): fold the per-team
CSV rows into the coach_event_attendance dict; the coach is the first
masterlist row of the team; the first count seen for a (coach, event)
key wins (no accumulation). -/
def buildCoachEventDict (scoreRows : List ScoreCsvRow)
    (master : List MasterRow) : List ((String × String) × Nat) :=
  scoreRows.foldl (fun acc row =>
    match master.find? (fun m => m.teamName == row.teamName) with
    | none => acc
    | some mrow =>
      row.counts.foldl (fun acc2 ec =>
        if acc2.any (fun kv => kv.1 == (mrow.coachName, ec.1)) then acc2
        else acc2 ++ [((mrow.coachName, ec.1), ec.2)]) acc) []

/-- The row fix_coach_scoring.py line 79-83 inserts for one resolved
dict entry: attended, with 2 points hardcoded. -/
def coachFixRow (eid cid : Nat) : AttendanceRecord :=
  { eventId := eid, memberId := none, coachId := some cid,
    attended := true, pointsEarned := 2,
    recordedBy := "Coach Fix System" }

/-- Step 5 of fix_coach_scoring.py (lines 70-84): one INSERT per dict
key with a positive count, with 2 points hardcoded; an entry whose
coach or event name does not resolve, or resolves to the falsy id 0,
is skipped. -/
def coachFixRows (s : Store) (dict : List ((String × String) × Nat)) :
    List AttendanceRecord :=
  dict.filterMap (fun kv =>
    if kv.2 > 0 then
      match coachIdByName s kv.1.1, eventIdByName s kv.1.2 with
      | some cid, some eid =>
        if cid ≠ 0 ∧ eid ≠ 0 then some (coachFixRow eid cid) else none
      | _, _ => none
    else none)

/-- fix_coach_scoring (fix_coach_scoring.py lines 12-88): delete every
coach attendance row, then rebuild one row per (coach, event) pair
from the CSV aggregates. -/
def fix_coach_scoring (s : Store) (scoreRows : List ScoreCsvRow)
    (master : List MasterRow) : Store :=
  { s with attendance :=
      s.attendance.filter (fun a => a.coachId == none) ++
      coachFixRows s (buildCoachEventDict scoreRows master) }

/-! ## Concrete stores used by witnesses and counterexamples -/

/-- The event of the C10 witness store. -/
def c10Event : Event :=
  { id := 1, name := "E", memberPointsPerAttendance := 1,
    coachPointsPerAttendance := 2, isActive := true }

/-- Store used by the C10 witness: one event of id 1 with coach rate
2, and a second missing event id 2. -/
def c10Store : Store :=
  { teams := [], members := [],
    coaches := [{ id := 9, name := "C", department := "", isActive := true }],
    events := [c10Event],
    attendance := [], bonusPoints := [], auditLog := [] }

/-- Store with one team T of five active members A..E and one event
E1, as reconciled by fix_fifth_member_distribution.py. -/
def fifthStore : Store :=
  { teams := [{ id := 1, name := "T", totalMembers := 5, coachId := none,
                department := "", isActive := true, updatedAt := 0 }],
    members := [
      { id := 1, name := "A", department := "", teamId := 1,
        isLeader := false, isActive := true },
      { id := 2, name := "B", department := "", teamId := 1,
        isLeader := false, isActive := true },
      { id := 3, name := "C", department := "", teamId := 1,
        isLeader := false, isActive := true },
      { id := 4, name := "D", department := "", teamId := 1,
        isLeader := false, isActive := true },
      { id := 5, name := "E", department := "", teamId := 1,
        isLeader := false, isActive := true }],
    coaches := [],
    events := [{ id := 10, name := "E1", memberPointsPerAttendance := 1,
                 coachPointsPerAttendance := 2, isActive := true }],
    attendance := [], bonusPoints := [], auditLog := [] }

/-- Store with one member and one event, attendance empty. -/
def c5Store : Store :=
  { teams := [],
    members := [{ id := 1, name := "M", department := "", teamId := 1,
                  isLeader := false, isActive := true }],
    coaches := [],
    events := [{ id := 1, name := "E", memberPointsPerAttendance := 1,
                 coachPointsPerAttendance := 2, isActive := true }],
    attendance := [], bonusPoints := [], auditLog := [] }

/-- The coach of the C3 witness store. -/
def c3Coach : Coach := { id := 1, name := "C", department := "", isActive := true }

/-- First of the three teams coached by c3Coach. -/
def c3TeamA : Team :=
  { id := 1, name := "TA", totalMembers := 5, coachId := some 1,
    department := "", isActive := true, updatedAt := 0 }

/-- Second of the three teams coached by c3Coach. -/
def c3TeamB : Team :=
  { id := 2, name := "TB", totalMembers := 5, coachId := some 1,
    department := "", isActive := true, updatedAt := 0 }

/-- Third of the three teams coached by c3Coach. -/
def c3TeamC : Team :=
  { id := 3, name := "TC", totalMembers := 5, coachId := some 1,
    department := "", isActive := true, updatedAt := 0 }

/-- Store for the C3 witness: one coach of three active teams who
attended two sessions at 2 points per session. -/
def c3Store : Store :=
  { teams := [c3TeamA, c3TeamB, c3TeamC],
    members := [],
    coaches := [c3Coach],
    events := [
      { id := 1, name := "S1", memberPointsPerAttendance := 1,
        coachPointsPerAttendance := 2, isActive := true },
      { id := 2, name := "S2", memberPointsPerAttendance := 1,
        coachPointsPerAttendance := 2, isActive := true }],
    attendance := [
      { eventId := 1, memberId := none, coachId := some 1,
        attended := true, pointsEarned := 2, recordedBy := "import" },
      { eventId := 2, memberId := none, coachId := some 1,
        attended := true, pointsEarned := 2, recordedBy := "import" }],
    bonusPoints := [], auditLog := [] }

/-- The team of the C4 dual-role witness. -/
def c4Team : Team :=
  { id := 1, name := "X", totalMembers := 1, coachId := some 1,
    department := "", isActive := true, updatedAt := 0 }

/-- The dual-role person P as a member of team X. -/
def c4MemberP : Member :=
  { id := 1, name := "P", department := "", teamId := 1,
    isLeader := false, isActive := true }

/-- The dual-role person P as the coach of team X. -/
def c4CoachP : Coach :=
  { id := 1, name := "P", department := "", isActive := true }

/-- The event of the C4 witness, with member rate mr and coach rate
cr. -/
def c4Event (mr cr : Int) : Event :=
  { id := 1, name := "E", memberPointsPerAttendance := mr,
    coachPointsPerAttendance := cr, isActive := true }

/-- Store for the C4 witness: person P is member 1 of team X and also
coach 1 of team X; one event with member rate mr and coach rate cr. -/
def c4Store (mr cr : Int) : Store :=
  { teams := [c4Team],
    members := [c4MemberP],
    coaches := [c4CoachP],
    events := [c4Event mr cr],
    attendance := [], bonusPoints := [], auditLog := [] }

/-- Points a dual-role person earns at one event: the points of the
member rows carrying the member id plus the points of the coach rows
carrying the coach id for that event. -/
def personEventPoints (s : Store) (eid mid cid : Nat) : Int :=
  ((s.attendance.filter (fun a =>
    a.eventId == eid && a.memberId == some mid)).map
    (fun a => a.pointsEarned)).sum +
  ((s.attendance.filter (fun a =>
    a.eventId == eid && a.coachId == some cid)).map
    (fun a => a.pointsEarned)).sum

/-- The row the member recording service appends for one attending
member: attended, earning the event's member rate. -/
def dualMemberRow (eid mid : Nat) (pm : Int) (rb : String) :
    AttendanceRecord :=
  { eventId := eid, memberId := some mid, coachId := none,
    attended := true, pointsEarned := pm, recordedBy := rb }

/-- The row the coach recording service appends for one session of an
attending coach: attended, earning the session points. -/
def dualCoachRow (eid cid : Nat) (pc : Int) (rb : String) :
    AttendanceRecord :=
  { eventId := eid, memberId := none, coachId := some cid,
    attended := true, pointsEarned := pc, recordedBy := rb }

/-- The team of the C7 witness store. -/
def c7Team : Team :=
  { id := 1, name := "Old", totalMembers := 1, coachId := none,
    department := "", isActive := true, updatedAt := 0 }

/-- Store for the C7 witness: one active team with a member attendance
row worth 3 points and an active team bonus of 2, final score 5. -/
def c7Store : Store :=
  { teams := [c7Team],
    members := [{ id := 1, name := "M", department := "", teamId := 1,
                  isLeader := false, isActive := true }],
    coaches := [],
    events := [{ id := 1, name := "E", memberPointsPerAttendance := 3,
                 coachPointsPerAttendance := 2, isActive := true }],
    attendance := [{ eventId := 1, memberId := some 1, coachId := none,
                     attended := true, pointsEarned := 3,
                     recordedBy := "import" }],
    bonusPoints := [{ teamId := 1, points := 2, reason := "r",
                      awardedBy := "a", isActive := true }],
    auditLog := [] }

/-- Store for the C6 counterexample: team T with five active members
and one override-recorded attendance row at event 99, an event the
reconciliation run does not touch. -/
def c6Store : Store :=
  { fifthStore with attendance :=
      [{ eventId := 99, memberId := some 1, coachId := none,
         attended := true, pointsEarned := 1,
         recordedBy := "Override System" }] }

/-- An attendance row of a member who is not on team T. -/
def c6KeepRow : AttendanceRecord :=
  { eventId := 50, memberId := some 77, coachId := none, attended := true,
    pointsEarned := 1, recordedBy := "import" }

/-- fifthStore with one attendance row of a non-team member. -/
def c6Store2 : Store := { fifthStore with attendance := [c6KeepRow] }

/-- The CHECK constraint of the attendance table: at least one of
member_id and coach_id is non-null. -/
def checkMemberOrCoach (a : AttendanceRecord) : Bool :=
  !(a.memberId == none) || !(a.coachId == none)

/-- Store for the C8 counterexample: event E with coach rate 3 and one
coach C. -/
def c8Store : Store :=
  { teams := [], members := [],
    coaches := [{ id := 4, name := "C", department := "", isActive := true }],
    events := [{ id := 5, name := "E", memberPointsPerAttendance := 1,
                 coachPointsPerAttendance := 3, isActive := true }],
    attendance := [], bonusPoints := [], auditLog := [] }

/-- Team-scores CSV rows for C8: two teams each reporting one coach
attendance at event E. -/
def c8Csv : List ScoreCsvRow :=
  [{ teamName := "T1", counts := [("E", 1)] },
   { teamName := "T2", counts := [("E", 1)] }]

/-- Masterlist rows for C8: both teams coached by C. -/
def c8Master : List MasterRow :=
  [{ teamName := "T1", coachName := "C" },
   { teamName := "T2", coachName := "C" }]

/-! ## Basic facts about the insertion sort -/

theorem insertByName_perm (x : Nat × String) (l : List (Nat × String)) :
    List.Perm (insertByName x l) (x :: l) := by
  induction l with
  | nil => simp [insertByName]
  | cons y ys ih =>
    simp only [insertByName]
    by_cases h : nameLe x.2 y.2 = true
    · simp [h]
    · simp only [h, if_neg, ite_false, Bool.false_eq_true]
      exact ((ih.cons y).trans (List.Perm.swap x y ys))

theorem sortRoster_perm (l : List (Nat × String)) :
    List.Perm (sortRoster l) l := by
  induction l with
  | nil => simp [sortRoster]
  | cons x xs ih =>
    exact (insertByName_perm x (sortRoster xs)).trans (ih.cons x)

theorem sortRoster_length (l : List (Nat × String)) :
    (sortRoster l).length = l.length :=
  (sortRoster_perm l).length_eq

theorem sortRoster_nodup {l : List (Nat × String)} (h : l.Nodup) :
    (sortRoster l).Nodup :=
  (sortRoster_perm l).nodup_iff.mpr h

theorem sortRoster_mem {l : List (Nat × String)} {x : Nat × String} :
    x ∈ sortRoster l ↔ x ∈ l :=
  (sortRoster_perm l).mem_iff

/-! ## Rotation arithmetic -/

theorem add_mod_mod_eq (a b n : Nat) : (a + b % n) % n = (a + b) % n := by
  rw [Nat.add_mod a (b % n), Nat.mod_mod_of_dvd b dvd_rfl, ← Nat.add_mod]

/-- Every residue below `R` is hit by the rotation `i ↦ (o + i) % R`
with `i < R`. -/
theorem rot_cover {R : Nat} (hR : 0 < R) (o p : Nat) (hp : p < R) :
    ∃ i, i < R ∧ (o + i) % R = p := by
  refine ⟨(p + (R - o % R)) % R, Nat.mod_lt _ hR, ?_⟩
  have hd : o % R < R := Nat.mod_lt _ hR
  have hm : R * (o / R) + o % R = o := Nat.div_add_mod o R
  rw [add_mod_mod_eq]
  have hrearr : o + (p + (R - o % R)) = R * (o / R) + (p + R) := by
    generalize R * (o / R) = m at hm ⊢
    omega
  rw [hrearr, Nat.mul_add_mod, Nat.add_mod_right, Nat.mod_eq_of_lt hp]

/-- A rotation offset reached with some `i < K` is already reached with
some `i < min K R`. -/
theorem rot_min_reduce {R K : Nat} (hR : 0 < R) (o p : Nat) :
    (∃ i, i < K ∧ (o + i) % R = p) ↔
      (∃ i, i < min K R ∧ (o + i) % R = p) := by
  constructor
  · rintro ⟨i, hi, hEq⟩
    refine ⟨i % R, ?_, ?_⟩
    · exact lt_min (Nat.lt_of_le_of_lt (Nat.mod_le i R) hi) (Nat.mod_lt _ hR)
    · rw [add_mod_mod_eq, hEq]
  · rintro ⟨i, hi, hEq⟩
    exact ⟨i, lt_of_lt_of_le hi (min_le_left _ _), hEq⟩

/-- The member at sorted position `p` is in the rotation attendee list
iff `p` is one of the `min K R` offsets `(seed % R + i) % R`. -/
theorem mem_allianceAttending_iff (team_members : List (Nat × String))
    (K seed p : Nat) (hnd : team_members.Nodup)
    (hR : 0 < team_members.length) (hp : p < team_members.length) :
    ((sortRoster team_members).getD p (0, "") ∈
        allianceAttending team_members K seed) ↔
      ∃ i, i < min K team_members.length ∧
        p = (seed % team_members.length + i) % team_members.length := by
  have hlen : (sortRoster team_members).length = team_members.length :=
    sortRoster_length _
  have hndS : (sortRoster team_members).Nodup := sortRoster_nodup hnd
  unfold allianceAttending
  by_cases hK : K > 0
  · simp only [hK, if_pos, List.mem_map, List.mem_range, hlen]
    constructor
    · rintro ⟨i, hi, hEq⟩
      have h1 : (seed % team_members.length + i) % team_members.length <
          team_members.length := Nat.mod_lt _ hR
      rw [List.getD_eq_getElem _ _ (by simpa [hlen] using h1),
        List.getD_eq_getElem _ _ (by simpa [hlen] using hp)] at hEq
      have hidx : (seed % team_members.length + i) % team_members.length = p :=
        (hndS.getElem_inj_iff).mp hEq
      have := (rot_min_reduce hR (seed % team_members.length) p).mp
        ⟨i, hi, hidx⟩
      obtain ⟨j, hj, hjEq⟩ := this
      exact ⟨j, hj, hjEq.symm⟩
    · rintro ⟨i, hi, hEq⟩
      refine ⟨i, lt_of_lt_of_le hi (min_le_left _ _), ?_⟩
      rw [hEq]
  · have hK0 : K = 0 := by omega
    subst hK0
    simp

theorem allianceDistribute_length (team_members : List (Nat × String))
    (eid K seed : Nat) :
    (allianceDistribute team_members eid K seed).length =
      team_members.length := by
  simp [allianceDistribute]

theorem allianceDistribute_getD (team_members : List (Nat × String))
    (eid K seed : Nat) {j : Nat} (hj : j < team_members.length) :
    (allianceDistribute team_members eid K seed).getD j defaultRecord =
      { eventId := eid
        memberId := some ((team_members.getD j (0, "")).1)
        coachId := none
        attended := (allianceAttending team_members K seed).contains
          (team_members.getD j (0, ""))
        pointsEarned :=
          if (allianceAttending team_members K seed).contains
              (team_members.getD j (0, "")) then 1 else 0
        recordedBy := "Fair Distribution System" } := by
  have hjo : j < (allianceDistribute team_members eid K seed).length := by
    rw [allianceDistribute_length]; exact hj
  rw [List.getD_eq_getElem _ _ hjo, List.getD_eq_getElem _ _ hj]
  simp [allianceDistribute]

/-- C1: reconciliation of a (team, event) pair with roster of R ≥ 1
members and aggregate count K (fix_alliance_attendance.py lines
169-198) writes one attendance row per roster member; if K = 0 every
row has attended = false and points_earned = 0 (rows present, not
absent); if K > 0 the member at sorted position p attends exactly when
p = (offset + i) mod R for some i < min K R with offset = seed mod R,
and every non-attending member's row has points_earned = 0; when
K ≥ R every roster member's single row has attended = true. -/
theorem c1_rotation_reconciliation (team_members : List (Nat × String))
    (eid K seed : Nat) (hR : 0 < team_members.length)
    (hnd : team_members.Nodup) :
    (allianceDistribute team_members eid K seed).length =
        team_members.length ∧
    (∀ r ∈ allianceDistribute team_members eid K seed,
        r.attended = false → r.pointsEarned = 0) ∧
    (K = 0 → ∀ r ∈ allianceDistribute team_members eid K seed,
        r.attended = false ∧ r.pointsEarned = 0) ∧
    (∀ j, j < team_members.length →
        ((allianceDistribute team_members eid K seed).getD j
            defaultRecord).memberId =
          some ((team_members.getD j (0, "")).1)) ∧
    (∀ p j, p < team_members.length → j < team_members.length →
        team_members.getD j (0, "") =
          (sortRoster team_members).getD p (0, "") →
        (((allianceDistribute team_members eid K seed).getD j
            defaultRecord).attended = true ↔
          ∃ i, i < min K team_members.length ∧
            p = (seed % team_members.length + i) %
              team_members.length)) ∧
    (team_members.length ≤ K →
        ∀ r ∈ allianceDistribute team_members eid K seed,
          r.attended = true) := by
  refine ⟨allianceDistribute_length _ _ _ _, ?_, ?_, ?_, ?_, ?_⟩
  · rintro r hr hatt
    obtain ⟨mp, hmp, rfl⟩ := List.mem_map.mp hr
    simp only at hatt ⊢
    simp only [hatt]
    rfl
  · intro hK0
    subst hK0
    rintro r hr
    obtain ⟨mp, hmp, rfl⟩ := List.mem_map.mp hr
    simp [allianceAttending]
  · intro j hj
    rw [allianceDistribute_getD _ _ _ _ hj]
  · intro p j hp hj heq
    rw [allianceDistribute_getD _ _ _ _ hj]
    simp only [heq]
    rw [show ((allianceAttending team_members K seed).contains
        ((sortRoster team_members).getD p (0, "")) = true) ↔
        ((sortRoster team_members).getD p (0, "") ∈
          allianceAttending team_members K seed) by simp]
    exact mem_allianceAttending_iff team_members K seed p hnd hR hp
  · intro hKR r hr
    obtain ⟨mp, hmp, rfl⟩ := List.mem_map.mp hr
    have hmpS : mp ∈ sortRoster team_members := sortRoster_mem.mpr hmp
    obtain ⟨p, hpS, hpeq⟩ := List.mem_iff_getElem.mp hmpS
    have hp : p < team_members.length := by
      rw [sortRoster_length] at hpS; exact hpS
    have hgetD : (sortRoster team_members).getD p (0, "") = mp := by
      rw [List.getD_eq_getElem _ _ hpS]; exact hpeq
    have hmem : mp ∈ allianceAttending team_members K seed := by
      rw [← hgetD]
      rw [mem_allianceAttending_iff team_members K seed p hnd hR hp]
      obtain ⟨i, hi, hiEq⟩ :=
        rot_cover hR (seed % team_members.length) p hp
      refine ⟨i, ?_, hiEq.symm⟩
      rw [min_eq_right hKR]
      exact hi
    simp only
    simp [hmem]

/-- Witness for C1 at the spec's boundary scenario: roster of 5,
K = 3, seed = 2. -/
theorem c1_rotation_reconciliation_witness :
    0 < ([(1, "a"), (2, "b"), (3, "c"), (4, "d"), (5, "e")] :
        List (Nat × String)).length ∧
    (allianceDistribute
        [(1, "a"), (2, "b"), (3, "c"), (4, "d"), (5, "e")] 7 3 2).length =
      ([(1, "a"), (2, "b"), (3, "c"), (4, "d"), (5, "e")] :
        List (Nat × String)).length :=
  ⟨by decide,
    (c1_rotation_reconciliation
      [(1, "a"), (2, "b"), (3, "c"), (4, "d"), (5, "e")] 7 3 2
      (by decide) (by decide)).1⟩

/-! ## Insertion semantics lemmas -/

theorem uniqueConflict_eq_false {a b : AttendanceRecord}
    (h : b.memberId = none ∨ b.coachId = none) :
    uniqueConflict a b = false := by
  unfold uniqueConflict
  rcases h with h | h <;> rw [h]
  · cases a.memberId <;> simp
  · cases a.coachId <;> simp

theorem insertOrReplace_nonconflicting (s : Store) (r : AttendanceRecord)
    (h : r.memberId = none ∨ r.coachId = none) :
    insertOrReplace s r = { s with attendance := s.attendance ++ [r] } := by
  unfold insertOrReplace
  have hf : s.attendance.filter (fun a => !(uniqueConflict a r)) =
      s.attendance := by
    rw [List.filter_eq_self]
    intro a _
    rw [uniqueConflict_eq_false h]
    rfl
  rw [hf]

theorem foldl_insertOrReplace_append {α : Type} (g : α → AttendanceRecord)
    (hg : ∀ p, (g p).memberId = none ∨ (g p).coachId = none) :
    ∀ (xs : List α) (s : Store),
      xs.foldl (fun st p => insertOrReplace st (g p)) s =
        { s with attendance := s.attendance ++ xs.map g } := by
  intro xs
  induction xs with
  | nil =>
    intro s
    cases s
    simp
  | cons x xt ih =>
    intro s
    simp only [List.foldl_cons, List.map_cons]
    rw [insertOrReplace_nonconflicting s (g x) (hg x), ih]
    simp [List.append_assoc]

theorem record_member_attendance_eq (s : Store) (eid : Nat)
    (xs : List (Nat × Bool)) (rb : String) (e : Event)
    (he : s.events.find? (fun ev => ev.id == eid) = some e) :
    record_member_attendance s eid xs rb =
      (true, { s with attendance := s.attendance ++ xs.map (fun p =>
        { eventId := eid, memberId := some p.1, coachId := none
          attended := p.2
          pointsEarned := if p.2 then e.memberPointsPerAttendance else 0
          recordedBy := rb }) }) := by
  unfold record_member_attendance
  rw [he]
  exact congrArg (Prod.mk true)
    (foldl_insertOrReplace_append _ (fun p => Or.inr rfl) xs s)

theorem record_coach_attendance_eq (s : Store) (eid : Nat)
    (xs : List (Nat × Int)) (rb : String) (e : Event)
    (he : s.events.find? (fun ev => ev.id == eid) = some e) :
    record_coach_attendance s eid xs rb =
      (true, { s with attendance :=
          s.attendance ++ xs.map (coachRow eid e.coachPointsPerAttendance rb) }) := by
  unfold record_coach_attendance
  rw [he]
  exact congrArg (Prod.mk true)
    (foldl_insertOrReplace_append _ (fun p => Or.inl rfl) xs s)

/-! ## C10: record_coach_attendance -/

/-- C10: record_coach_attendance returns false and leaves the store
unchanged when the event id does not resolve; when it resolves it
returns true and, for each (coach, sessions) pair, writes one row with
attended = (sessions > 0) and points_earned = sessions *
coach_points_per_attendance. -/
theorem c10_record_coach_attendance (s : Store) (eid : Nat)
    (xs : List (Nat × Int)) (rb : String) :
    (s.events.find? (fun ev => ev.id == eid) = none →
      record_coach_attendance s eid xs rb = (false, s)) ∧
    (∀ e, s.events.find? (fun ev => ev.id == eid) = some e →
      (record_coach_attendance s eid xs rb).1 = true ∧
      (record_coach_attendance s eid xs rb).2.attendance =
        s.attendance ++
          xs.map (coachRow eid e.coachPointsPerAttendance rb) ∧
      ∀ p ∈ xs,
        (coachRow eid e.coachPointsPerAttendance rb p).attended =
          decide (p.2 > 0) ∧
        (coachRow eid e.coachPointsPerAttendance rb p).pointsEarned =
          p.2 * e.coachPointsPerAttendance) := by
  constructor
  · intro h
    unfold record_coach_attendance
    rw [h]
  · intro e he
    have hmain := record_coach_attendance_eq s eid xs rb e he
    refine ⟨by rw [hmain], by rw [hmain], ?_⟩
    intro p _
    exact ⟨rfl, rfl⟩

/-- Witness for C10: 3 sessions at rate 2 yield one row with 6 points;
a missing event returns false untouched. -/
theorem c10_record_coach_attendance_witness :
    (record_coach_attendance c10Store 1 [(9, 3)] "Admin").2.attendance =
      [{ eventId := 1, memberId := none, coachId := some 9,
         attended := true, pointsEarned := 6, recordedBy := "Admin" }] ∧
    record_coach_attendance c10Store 2 [(9, 3)] "Admin" =
      (false, c10Store) := by
  constructor
  · have h := ((c10_record_coach_attendance c10Store 1 [(9, 3)]
      "Admin").2 c10Event rfl).2.1
    rw [h]
    decide
  · exact (c10_record_coach_attendance c10Store 2 [(9, 3)] "Admin").1 rfl

/-! ## C2: the fix_fifth seed and process state -/

/-- C2 (refuted): fix_fifth_member_distribution.py line 105 seeds the
rotation with hash(team_name + event_name) % 100000 where hash is
Python's builtin str hash, salted per process by PYTHONHASHSEED; two
processes whose hashes of the same string are 0 and 1 assign different
attendee sets to the same (team, roster, event, count) input, so the
seed is not a pure function of the team and event identifiers. -/
theorem c2_seed_depends_on_process_hash :
    attendedMemberIds
        (fixTeamDistribution fifthStore "T" [("E1", 2)] (fun _ => 0)) ≠
      attendedMemberIds
        (fixTeamDistribution fifthStore "T" [("E1", 2)] (fun _ => 1)) := by
  decide

/-! ## C5 counterexample: duplicate (event, member) rows -/

/-- C5 counterexample: recording the same member's attendance at the
same event twice via record_member_attendance leaves two rows for the
(event 1, member 1) pair — the UNIQUE(event_id, member_id, coach_id)
constraint treats the NULL coach_id as distinct, so INSERT OR REPLACE
never replaces and duplicates accumulate. -/
theorem c5_counterexample :
    ((record_member_attendance
        ((record_member_attendance c5Store 1 [(1, true)] "Admin").2)
        1 [(1, true)] "Admin").2.attendance.filter
      (fun a => a.eventId == 1 && a.memberId == some 1)).length = 2 := by
  decide

/-! ## C9: aggregate count exceeding the roster size -/

/-- C9 counterexample: a (team, event) pair with roster size 5 and
aggregate count 6 is not skipped and raises no error: 5 rows are
written and every roster member is marked attended. -/
theorem c9_counterexample :
    (allianceDistribute [(1, "a"), (2, "b"), (3, "c"), (4, "d"), (5, "e")]
        3 6 0).length = 5 ∧
    (allianceDistribute [(1, "a"), (2, "b"), (3, "c"), (4, "d"), (5, "e")]
        3 6 0).all (fun r => r.attended) = true := by
  decide

/-- C9 amended: when the aggregate count exceeds the roster size the
pair is not skipped and no error is reported: one row per roster
member is written and every member is marked attended (the excess
count is silently absorbed by the wrap-around). -/
theorem c9_amended_overflow_marks_all (team_members : List (Nat × String))
    (eid K seed : Nat) (hR : 0 < team_members.length)
    (hK : team_members.length < K) :
    (allianceDistribute team_members eid K seed).length =
        team_members.length ∧
    ∀ r ∈ allianceDistribute team_members eid K seed,
      r.attended = true := by
  refine ⟨allianceDistribute_length _ _ _ _, ?_⟩
  rintro r hr
  obtain ⟨mp, hmp, rfl⟩ := List.mem_map.mp hr
  have hmpS : mp ∈ sortRoster team_members := sortRoster_mem.mpr hmp
  obtain ⟨p, hpS, hpeq⟩ := List.mem_iff_getElem.mp hmpS
  have hlen : (sortRoster team_members).length = team_members.length :=
    sortRoster_length _
  have hmem : mp ∈ allianceAttending team_members K seed := by
    unfold allianceAttending
    have hKpos : K > 0 := by omega
    simp only [hKpos, if_pos, List.mem_map, List.mem_range]
    obtain ⟨i, hiR, hiEq⟩ := rot_cover
      (show 0 < (sortRoster team_members).length by omega)
      (seed % (sortRoster team_members).length) p hpS
    refine ⟨i, by omega, ?_⟩
    rw [hiEq, List.getD_eq_getElem _ _ hpS]
    exact hpeq
  simp only
  simp [hmem]

/-- Witness for the amended C9 at roster 5, count 6. -/
theorem c9_amended_overflow_marks_all_witness :
    0 < ([(1, "a"), (2, "b"), (3, "c"), (4, "d"), (5, "e")] :
        List (Nat × String)).length ∧
    (allianceDistribute [(1, "a"), (2, "b"), (3, "c"), (4, "d"), (5, "e")]
        3 6 0).length =
      ([(1, "a"), (2, "b"), (3, "c"), (4, "d"), (5, "e")] :
        List (Nat × String)).length :=
  ⟨by decide,
    (c9_amended_overflow_marks_all
      [(1, "a"), (2, "b"), (3, "c"), (4, "d"), (5, "e")] 3 6 0
      (by decide) (by decide)).1⟩

/-! ## Key-uniqueness helper -/

/-- Filtering a list by equality on a Nodup key at a member's key
returns exactly that member. -/
theorem filter_id_eq_singleton {α : Type} (key : α → Nat) :
    ∀ (l : List α), (l.map key).Nodup → ∀ c ∈ l,
      l.filter (fun x => key x == key c) = [c] := by
  intro l
  induction l with
  | nil => intro _ c hc; cases hc
  | cons x xs ih =>
    intro hnd c hc
    simp only [List.map_cons, List.nodup_cons] at hnd
    obtain ⟨hnotin, hndxs⟩ := hnd
    rcases List.mem_cons.mp hc with rfl | hc
    · rw [List.filter_cons_of_pos (by simp)]
      have hnil : xs.filter (fun y => key y == key c) = [] := by
        rw [List.filter_eq_nil_iff]
        intro a ha
        simp only [beq_iff_eq]
        intro hEq
        exact hnotin (hEq ▸ List.mem_map_of_mem key ha)
      rw [hnil]
    · have hxc : key x ≠ key c := by
        intro hEq
        exact hnotin (hEq ▸ List.mem_map_of_mem key hc)
      rw [List.filter_cons_of_neg (by simp [hxc])]
      exact ih hndxs c hc

/-! ## C3: team_scores coach attribution -/

/-- C3: every active team's v_team_scores row satisfies final_score =
member_points + coach_points + bonus_points, and its coach_points
column equals the linked coach's own total earned points over the
coach's attended rows, attributed in full to the team (the value does
not depend on which of the coach's teams is asked). -/
theorem c3_team_scores_attribution (s : Store) (t : Team) (c : Coach)
    (ht : t ∈ s.teams) (hact : t.isActive = true)
    (hcid : t.coachId = some c.id) (hc : c ∈ s.coaches)
    (hnd : (s.coaches.map (fun x => x.id)).Nodup) :
    teamScoreRow s t ∈ vTeamScores s ∧
    (teamScoreRow s t).finalScore =
      (teamScoreRow s t).memberPts + (teamScoreRow s t).coachPts +
        (teamScoreRow s t).bonusPts ∧
    (teamScoreRow s t).coachPts = coachTotalPoints s c.id := by
  refine ⟨?_, rfl, ?_⟩
  · exact List.mem_map_of_mem _ (List.mem_filter.mpr ⟨ht, by simp [hact]⟩)
  · show coachPoints s t = coachTotalPoints s c.id
    have hstep : coachPoints s t =
        ((s.coaches.filter (fun x => x.id == c.id)).map (fun x =>
          ((s.attendance.filter (fun a =>
            a.coachId == some x.id && a.attended)).map
            (fun a => a.pointsEarned)).sum)).sum := by
      unfold coachPoints
      rw [hcid]
    rw [hstep, filter_id_eq_singleton (fun x => x.id) s.coaches hnd c hc]
    simp [coachTotalPoints]

/-- Witness for C3: the coach's total is 4 and each of the three
teams' coach_points reads 4 (not 4/3, not 12). -/
theorem c3_team_scores_attribution_witness :
    (teamScoreRow c3Store c3TeamA).coachPts = 4 ∧
    (teamScoreRow c3Store c3TeamB).coachPts = 4 ∧
    (teamScoreRow c3Store c3TeamC).coachPts = 4 := by
  refine ⟨?_, ?_, ?_⟩
  · exact ((c3_team_scores_attribution c3Store c3TeamA c3Coach (by decide)
      (by decide) (by decide) (by decide) (by decide)).2.2).trans (by decide)
  · exact ((c3_team_scores_attribution c3Store c3TeamB c3Coach (by decide)
      (by decide) (by decide) (by decide) (by decide)).2.2).trans (by decide)
  · exact ((c3_team_scores_attribution c3Store c3TeamC c3Coach (by decide)
      (by decide) (by decide) (by decide) (by decide)).2.2).trans (by decide)

/-! ## C4: dual-role member-and-coach scoring -/

theorem option_beq_none_some (x : Nat) :
    ((none : Option Nat) == some x) = false := rfl

theorem option_beq_some_none (x : Nat) :
    ((some x : Option Nat) == none) = false := rfl

theorem option_beq_some_some (a b : Nat) :
    ((some a : Option Nat) == some b) = (a == b) := rfl

theorem sum_map_add {α : Type} (f g : α → Int) :
    ∀ (l : List α),
      (l.map (fun x => f x + g x)).sum = (l.map f).sum + (l.map g).sum := by
  intro l
  induction l with
  | nil => simp
  | cons x xs ih =>
    simp only [List.map_cons, List.sum_cons, ih]
    ring

/-- Summing an indicator of a Nodup key over a list containing the key
once yields the indicated value. -/
theorem sum_map_ite_key {α : Type} (key : α → Nat) (k0 : Nat) (v : Int) :
    ∀ (l : List α), (l.map key).Nodup → ∀ c ∈ l, key c = k0 →
      (l.map (fun x => if (k0 == key x) = true then v else 0)).sum = v := by
  intro l
  induction l with
  | nil =>
    intro _ c hc
    cases hc
  | cons x xs ih =>
    intro hnd c hc hk
    simp only [List.map_cons, List.nodup_cons] at hnd
    obtain ⟨hnot, hndxs⟩ := hnd
    rcases List.mem_cons.mp hc with rfl | hc2
    · simp only [List.map_cons, List.sum_cons]
      rw [if_pos (by rw [hk]; exact beq_self_eq_true _)]
      have hrest : (xs.map (fun x =>
          if (k0 == key x) = true then v else 0)).sum = 0 := by
        apply List.sum_eq_zero
        intro y hy
        obtain ⟨x2, hx2, rfl⟩ := List.mem_map.mp hy
        rw [if_neg]
        intro hbeq
        rw [beq_iff_eq] at hbeq
        exact hnot (by rw [hk, hbeq]; exact List.mem_map_of_mem key hx2)
      rw [hrest, add_zero]
    · have hne : ¬((k0 == key x) = true) := by
        intro hbeq
        rw [beq_iff_eq] at hbeq
        have hkx : key c = key x := hk.trans hbeq
        exact hnot (hkx ▸ List.mem_map_of_mem key hc2)
      simp only [List.map_cons, List.sum_cons]
      rw [if_neg hne, zero_add]
      exact ih hndxs c hc2 hk

theorem store_att_upd (s : Store) (x : List AttendanceRecord) :
    ({ s with attendance := x } : Store).attendance = x := rfl

theorem store_members_proj (s : Store) (x : List AttendanceRecord) :
    ({ s with attendance := x } : Store).members = s.members := rfl

theorem store_coaches_proj (s : Store) (x : List AttendanceRecord) :
    ({ s with attendance := x } : Store).coaches = s.coaches := rfl

/-- A team's coach_points column equals its linked coach's own
attended-row total when coach ids are unique. -/
theorem coachPoints_eq_coachTotal (s2 : Store) (t : Team) (c : Coach)
    (hcids : (s2.coaches.map (fun x => x.id)).Nodup)
    (hc : c ∈ s2.coaches) (hcoach : t.coachId = some c.id) :
    coachPoints s2 t = coachTotalPoints s2 c.id := by
  have hstep : coachPoints s2 t =
      ((s2.coaches.filter (fun x => x.id == c.id)).map (fun x =>
        ((s2.attendance.filter (fun a =>
          a.coachId == some x.id && a.attended)).map
          (fun a => a.pointsEarned)).sum)).sum := by
    unfold coachPoints
    rw [hcoach]
  rw [hstep, filter_id_eq_singleton (fun x => x.id) s2.coaches hcids c hc]
  simp [coachTotalPoints]

/-- Appending the member's attending row and the coach's attending row
for one event adds each row's points once to the person's event total
and once to the team's final score. -/
theorem append_dual_rows_scores (s : Store) (t : Team) (m : Member)
    (c : Coach) (eid : Nat) (pm pc : Int) (rb1 rb2 : String)
    (hmids : (s.members.map (fun x => x.id)).Nodup)
    (hcids : (s.coaches.map (fun x => x.id)).Nodup)
    (hm : m ∈ s.members) (hmact : m.isActive = true)
    (hmteam : m.teamId = t.id)
    (hc : c ∈ s.coaches) (hcoach : t.coachId = some c.id) :
    personEventPoints { s with attendance :=
        (s.attendance ++ [dualMemberRow eid m.id pm rb1]) ++
          [dualCoachRow eid c.id pc rb2] } eid m.id c.id =
      personEventPoints s eid m.id c.id + pm + pc ∧
    (teamScoreRow { s with attendance :=
        (s.attendance ++ [dualMemberRow eid m.id pm rb1]) ++
          [dualCoachRow eid c.id pc rb2] } t).finalScore =
      (teamScoreRow s t).finalScore + pm + pc := by
  constructor
  · unfold personEventPoints
    rw [store_att_upd]
    simp only [List.filter_append, List.map_append, List.sum_append]
    have e1 : [dualMemberRow eid m.id pm rb1].filter
        (fun a => a.eventId == eid && a.memberId == some m.id) =
        [dualMemberRow eid m.id pm rb1] := by
      simp [dualMemberRow]
    have e2 : [dualCoachRow eid c.id pc rb2].filter
        (fun a => a.eventId == eid && a.memberId == some m.id) = [] := by
      simp [dualCoachRow, option_beq_none_some]
    have e3 : [dualMemberRow eid m.id pm rb1].filter
        (fun a => a.eventId == eid && a.coachId == some c.id) = [] := by
      simp [dualMemberRow, option_beq_none_some]
    have e4 : [dualCoachRow eid c.id pc rb2].filter
        (fun a => a.eventId == eid && a.coachId == some c.id) =
        [dualCoachRow eid c.id pc rb2] := by
      simp [dualCoachRow]
    rw [e1, e2, e3, e4]
    simp only [List.map_cons, List.map_nil, List.sum_cons, List.sum_nil]
    simp only [dualMemberRow, dualCoachRow]
    ring
  · have hb : bonusPointsOfTeam { s with attendance :=
        (s.attendance ++ [dualMemberRow eid m.id pm rb1]) ++
          [dualCoachRow eid c.id pc rb2] } t.id =
        bonusPointsOfTeam s t.id := rfl
    have hcp : coachPoints { s with attendance :=
        (s.attendance ++ [dualMemberRow eid m.id pm rb1]) ++
          [dualCoachRow eid c.id pc rb2] } t = coachPoints s t + pc := by
      rw [coachPoints_eq_coachTotal ({ s with attendance :=
          (s.attendance ++ [dualMemberRow eid m.id pm rb1]) ++
            [dualCoachRow eid c.id pc rb2] }) t c hcids hc hcoach,
        coachPoints_eq_coachTotal s t c hcids hc hcoach]
      show (((((s.attendance ++ [dualMemberRow eid m.id pm rb1]) ++
          [dualCoachRow eid c.id pc rb2])).filter (fun a =>
          a.coachId == some c.id && a.attended)).map
          (fun a => a.pointsEarned)).sum =
        coachTotalPoints s c.id + pc
      simp only [List.filter_append, List.map_append, List.sum_append]
      have e5 : [dualMemberRow eid m.id pm rb1].filter
          (fun a => a.coachId == some c.id && a.attended) = [] := by
        simp [dualMemberRow, option_beq_none_some]
      have e6 : [dualCoachRow eid c.id pc rb2].filter
          (fun a => a.coachId == some c.id && a.attended) =
          [dualCoachRow eid c.id pc rb2] := by
        simp [dualCoachRow]
      rw [e5, e6]
      simp only [List.map_cons, List.map_nil, List.sum_cons, List.sum_nil]
      simp only [dualCoachRow, coachTotalPoints]
      ring
    have hmp : memberPoints { s with attendance :=
        (s.attendance ++ [dualMemberRow eid m.id pm rb1]) ++
          [dualCoachRow eid c.id pc rb2] } t.id =
        memberPoints s t.id + pm := by
      have hL : ((s.members.filter (fun m2 =>
          m2.isActive && m2.teamId == t.id)).map (fun x => x.id)).Nodup :=
        List.Nodup.sublist
          (List.Sublist.map (fun x => x.id) (List.filter_sublist s.members))
          hmids
      have hmL : m ∈ s.members.filter (fun m2 =>
          m2.isActive && m2.teamId == t.id) :=
        List.mem_filter.mpr ⟨hm, by simp [hmact, hmteam]⟩
      have hdef : memberPoints { s with attendance :=
          (s.attendance ++ [dualMemberRow eid m.id pm rb1]) ++
            [dualCoachRow eid c.id pc rb2] } t.id =
          ((s.members.filter (fun m2 =>
            m2.isActive && m2.teamId == t.id)).map (fun m2 =>
              (((((s.attendance ++ [dualMemberRow eid m.id pm rb1]) ++
                [dualCoachRow eid c.id pc rb2])).filter (fun a =>
                a.memberId == some m2.id)).map
                (fun a => a.pointsEarned)).sum)).sum := rfl
      rw [hdef]
      have hptw : ∀ m2 ∈ s.members.filter (fun m2 =>
          m2.isActive && m2.teamId == t.id),
          (((((s.attendance ++ [dualMemberRow eid m.id pm rb1]) ++
            [dualCoachRow eid c.id pc rb2])).filter (fun a =>
            a.memberId == some m2.id)).map (fun a => a.pointsEarned)).sum =
          ((s.attendance.filter (fun a =>
            a.memberId == some m2.id)).map (fun a => a.pointsEarned)).sum +
          (if (m.id == m2.id) = true then pm else 0) := by
        intro m2 _
        simp only [List.filter_append, List.map_append, List.sum_append]
        have ec : [dualCoachRow eid c.id pc rb2].filter
            (fun a => a.memberId == some m2.id) = [] := by
          simp [dualCoachRow, option_beq_none_some]
        rw [ec]
        by_cases hbm : (m.id == m2.id) = true
        · have em : [dualMemberRow eid m.id pm rb1].filter
              (fun a => a.memberId == some m2.id) =
              [dualMemberRow eid m.id pm rb1] := by
            simp [dualMemberRow, option_beq_some_some, hbm]
          rw [em, if_pos hbm]
          simp [dualMemberRow]
        · have em : [dualMemberRow eid m.id pm rb1].filter
              (fun a => a.memberId == some m2.id) = [] := by
            simp only [List.filter]
            rw [show (((dualMemberRow eid m.id pm rb1).memberId ==
                some m2.id)) = false from by
              rw [dualMemberRow]
              rw [option_beq_some_some]
              exact Bool.not_eq_true _ ▸ hbm]
          rw [em, if_neg hbm]
          simp
      rw [List.map_congr_left hptw, sum_map_add]
      have hsum1 : ((s.members.filter (fun m2 =>
          m2.isActive && m2.teamId == t.id)).map (fun m2 =>
            ((s.attendance.filter (fun a =>
              a.memberId == some m2.id)).map
              (fun a => a.pointsEarned)).sum)).sum =
          memberPoints s t.id := rfl
      have hsum2 : ((s.members.filter (fun m2 =>
          m2.isActive && m2.teamId == t.id)).map (fun m2 =>
            if (m.id == m2.id) = true then pm else 0)).sum = pm :=
        sum_map_ite_key (fun x => x.id) m.id pm _ hL m hmL rfl
      rw [hsum1, hsum2]
    show memberPoints _ t.id + coachPoints _ t + bonusPointsOfTeam _ t.id =
      (memberPoints s t.id + coachPoints s t + bonusPointsOfTeam s t.id) +
        pm + pc
    rw [hb, hcp, hmp]
    ring

/-- C4: for every store, every dual-role person — an active member m of
a team t who also appears as the coach c linked to t, under the same
name — and every event, attending once in each role through the two
recording services adds member_rate + coach_rate to the person's
points at that event (the member row earns the member rate, the coach
row the coach rate, summed and never deduplicated), and the team's
final_score gains the member contribution and the coach contribution
exactly once each. -/
theorem c4_dual_role_points (s : Store) (t : Team) (m : Member)
    (c : Coach) (e : Event) (rb1 rb2 : String)
    (hmids : (s.members.map (fun x => x.id)).Nodup)
    (hcids : (s.coaches.map (fun x => x.id)).Nodup)
    (ht : t ∈ s.teams) (htact : t.isActive = true)
    (hm : m ∈ s.members) (hmact : m.isActive = true)
    (hmteam : m.teamId = t.id)
    (hc : c ∈ s.coaches) (hcoach : t.coachId = some c.id)
    (hname : m.name = c.name)
    (hfind : s.events.find? (fun ev => ev.id == e.id) = some e) :
    personEventPoints
        (record_coach_attendance
          ((record_member_attendance s e.id [(m.id, true)] rb1).2)
          e.id [(c.id, 1)] rb2).2 e.id m.id c.id =
      personEventPoints s e.id m.id c.id +
        e.memberPointsPerAttendance + e.coachPointsPerAttendance ∧
    (teamScoreRow
        (record_coach_attendance
          ((record_member_attendance s e.id [(m.id, true)] rb1).2)
          e.id [(c.id, 1)] rb2).2 t).finalScore =
      (teamScoreRow s t).finalScore +
        e.memberPointsPerAttendance + e.coachPointsPerAttendance := by
  have h1 := record_member_attendance_eq s e.id [(m.id, true)] rb1 e hfind
  have hs1 : (record_member_attendance s e.id [(m.id, true)] rb1).2 =
      { s with attendance := s.attendance ++
        [dualMemberRow e.id m.id e.memberPointsPerAttendance rb1] } := by
    rw [h1]
    rfl
  have h2 := record_coach_attendance_eq
    ({ s with attendance := s.attendance ++
      [dualMemberRow e.id m.id e.memberPointsPerAttendance rb1] })
    e.id [(c.id, 1)] rb2 e hfind
  have hs2 : (record_coach_attendance
      ({ s with attendance := s.attendance ++
        [dualMemberRow e.id m.id e.memberPointsPerAttendance rb1] })
      e.id [(c.id, 1)] rb2).2 =
      { s with attendance :=
        (s.attendance ++
          [dualMemberRow e.id m.id e.memberPointsPerAttendance rb1]) ++
        [dualCoachRow e.id c.id (1 * e.coachPointsPerAttendance) rb2] } := by
    rw [h2]
    rfl
  rw [hs1, hs2]
  have hmain := append_dual_rows_scores s t m c e.id
    e.memberPointsPerAttendance (1 * e.coachPointsPerAttendance) rb1 rb2
    hmids hcids hm hmact hmteam hc hcoach
  constructor
  · linarith [hmain.1]
  · linarith [hmain.2]

/-- Witness for C4 at the concrete dual-role store (member rate 1,
coach rate 2). -/
theorem c4_dual_role_points_witness :
    personEventPoints
        (record_coach_attendance
          ((record_member_attendance (c4Store 1 2) (c4Event 1 2).id
            [(c4MemberP.id, true)] "Admin").2)
          (c4Event 1 2).id [(c4CoachP.id, 1)] "Admin").2
        (c4Event 1 2).id c4MemberP.id c4CoachP.id =
      personEventPoints (c4Store 1 2) (c4Event 1 2).id c4MemberP.id
          c4CoachP.id +
        (c4Event 1 2).memberPointsPerAttendance +
        (c4Event 1 2).coachPointsPerAttendance :=
  (c4_dual_role_points (c4Store 1 2) c4Team c4MemberP c4CoachP
    (c4Event 1 2) "Admin" "Admin" (by decide) (by decide) (by decide)
    (by decide) (by decide) (by decide) (by decide) (by decide)
    (by decide) (by decide) rfl).1

/-! ## C7: rename frame condition -/

theorem coachPoints_congr (s : Store) {t1 t2 : Team}
    (h : t1.coachId = t2.coachId) : coachPoints s t1 = coachPoints s t2 := by
  unfold coachPoints
  rw [h]

/-- The name query over the view filters the active teams by name. -/
theorem getTeamScoresByName_eq (s2 : Store) (nm : String) :
    getTeamScoresByName s2 nm =
      (s2.teams.filter (fun t => t.isActive && t.name == nm)).map
        (teamScoreRow s2) := by
  unfold getTeamScoresByName vTeamScores
  rw [List.filter_map, List.filter_filter]
  apply congrArg
  apply List.filter_congr
  intro t _
  show ((t.name == nm) && t.isActive) = (t.isActive && (t.name == nm))
  exact Bool.and_comm _ _

/-- C7: a successful rename_team changes only the team's name (plus
its updated_at and one appended audit row): attendance, members,
coaches, events and bonus rows are untouched; every team keeps its id,
coach link, activity flag, roster size and department; every team's
four numeric score columns are unchanged; and querying team scores for
the new name returns exactly one row whose final_score equals the
renamed team's final_score before the rename. -/
theorem c7_rename_frame (s : Store) (tid : Nat) (newName : String)
    (now : Nat) (hnd : (s.teams.map (fun t => t.id)).Nodup)
    (s' : Store) (hren : rename_team s tid newName now = (true, s')) :
    s'.attendance = s.attendance ∧
    s'.members = s.members ∧
    s'.coaches = s.coaches ∧
    s'.events = s.events ∧
    s'.bonusPoints = s.bonusPoints ∧
    (∃ en, s'.auditLog = s.auditLog ++ [en]) ∧
    s'.teams.map (fun t =>
        (t.id, t.coachId, t.isActive, t.totalMembers, t.department)) =
      s.teams.map (fun t =>
        (t.id, t.coachId, t.isActive, t.totalMembers, t.department)) ∧
    s'.teams.map (fun t => ((teamScoreRow s' t).memberPts,
        (teamScoreRow s' t).coachPts, (teamScoreRow s' t).bonusPts,
        (teamScoreRow s' t).finalScore)) =
      s.teams.map (fun t => ((teamScoreRow s t).memberPts,
        (teamScoreRow s t).coachPts, (teamScoreRow s t).bonusPts,
        (teamScoreRow s t).finalScore)) ∧
    (∃ t0 ∈ s.teams, t0.id = tid ∧ t0.isActive = true ∧
      getTeamScoresByName s' newName =
        [teamScoreRow s' { t0 with name := newName, updatedAt := now }] ∧
      (teamScoreRow s'
          { t0 with name := newName, updatedAt := now }).finalScore =
        (teamScoreRow s t0).finalScore) := by
  unfold rename_team at hren
  split at hren
  · simp at hren
  rename_i t0 hfind
  split at hren
  · simp at hren
  rename_i h1
  split at hren
  · simp at hren
  rename_i h2
  have hs' := congrArg Prod.snd hren
  simp only at hs'
  subst hs'
  have ht0mem : t0 ∈ s.teams := List.mem_of_find?_eq_some hfind
  have ht0pred := List.find?_some hfind
  rw [Bool.and_eq_true, beq_iff_eq] at ht0pred
  obtain ⟨ht0id, ht0act⟩ := ht0pred
  have hnoname : ∀ t ∈ s.teams, (t.name == newName) = false := by
    intro t ht
    have := List.any_eq_false.mp (Bool.not_eq_true _ ▸ h2) t ht
    simpa using this
  refine ⟨rfl, rfl, rfl, rfl, rfl, ⟨_, rfl⟩, ?_, ?_, ?_⟩
  · rw [List.map_map]
    apply List.map_congr_left
    intro t _
    simp only [Function.comp_apply]
    by_cases h : (t.id == tid) = true
    · rw [if_pos h]
    · rw [if_neg h]
  · rw [List.map_map]
    apply List.map_congr_left
    intro t _
    simp only [Function.comp_apply]
    by_cases h : (t.id == tid) = true
    · rw [if_pos h]
      rfl
    · rw [if_neg h]
      rfl
  · refine ⟨t0, ht0mem, ht0id, ht0act, ?_, rfl⟩
    rw [getTeamScoresByName_eq]
    have hstep : (List.map (fun t =>
          if (t.id == tid) = true then
            { t with name := newName, updatedAt := now } else t)
          s.teams).filter (fun t => t.isActive && t.name == newName) =
        List.map (fun t =>
          if (t.id == tid) = true then
            { t with name := newName, updatedAt := now } else t) [t0] := by
      rw [List.filter_map]
      congr 1
      have hpt : ∀ t ∈ s.teams,
          ((if (t.id == tid) = true then
              { t with name := newName, updatedAt := now } else t).isActive &&
            ((if (t.id == tid) = true then
              { t with name := newName, updatedAt := now } else t).name ==
              newName)) = (t.id == t0.id) := by
        intro t ht
        by_cases h : (t.id == tid) = true
        · have hteq : t = t0 := by
            apply List.inj_on_of_nodup_map hnd ht ht0mem
            rw [beq_iff_eq] at h
            rw [h, ht0id]
          subst hteq
          rw [if_pos h]
          simp [ht0act]
        · rw [if_neg h]
          rw [hnoname t ht, Bool.and_false, ht0id]
          exact (Bool.not_eq_true _ ▸ h : (t.id == tid) = false).symm
      exact (List.filter_congr hpt).trans
        (filter_id_eq_singleton (fun t => t.id) s.teams hnd t0 ht0mem)
    rw [hstep]
    simp only [List.map_cons, List.map_nil]
    rw [if_pos (show (t0.id == tid) = true by rw [beq_iff_eq]; exact ht0id)]

/-- Witness for C7: renaming the 5-point team Old to New preserves
attendance and serves final_score 5 under the new name. -/
theorem c7_rename_frame_witness :
    (rename_team c7Store 1 "New" 5).2.attendance = c7Store.attendance ∧
    (getTeamScoresByName (rename_team c7Store 1 "New" 5).2 "New").map
      (fun r => r.finalScore) = [5] := by
  have h := c7_rename_frame c7Store 1 "New" 5 (by decide)
    (rename_team c7Store 1 "New" 5).2 rfl
  obtain ⟨hatt, -, -, -, -, -, -, -, t0, ht0, -, -, hq, hfs⟩ := h
  refine ⟨hatt, ?_⟩
  rw [hq]
  simp only [List.map_cons, List.map_nil]
  rw [hfs]
  have ht0eq : t0 = c7Team := by
    simpa [c7Store] using ht0
  subst ht0eq
  decide

/-! ## C6: reconciliation deletion scope and idempotence -/

/-- C6 counterexample: the per-team fix deletes the override-recorded
attendance row of event 99 — a record of another (team, event) pair
with override provenance — even though the run only re-inserts rows
for event E1. -/
theorem c6_counterexample :
    ({ eventId := 99, memberId := some 1, coachId := none,
       attended := true, pointsEarned := 1,
       recordedBy := "Override System" } : AttendanceRecord) ∈
        c6Store.attendance ∧
    ((fixTeamDistribution c6Store "T" [("E1", 1)]
        (fun _ => 0)).attendance.filter
      (fun a => a.eventId == 99)).length = 0 := by
  decide

theorem activeTeamMembersSorted_att (s : Store) (tn : String)
    (x : List AttendanceRecord) :
    activeTeamMembersSorted { s with attendance := x } tn =
      activeTeamMembersSorted s tn := rfl

theorem refsTeamMember_att (s : Store) (tn : String)
    (x : List AttendanceRecord) :
    refsTeamMember { s with attendance := x } tn = refsTeamMember s tn :=
  rfl

theorem fifthGenRows_att (s : Store) (tn : String)
    (evd : List (String × Nat)) (ph : String → Nat)
    (x : List AttendanceRecord) :
    fifthGenRows { s with attendance := x } tn evd ph =
      fifthGenRows s tn evd ph := rfl

theorem store_att_proj (s : Store) (x : List AttendanceRecord) :
    ({ s with attendance := x } : Store).attendance = x := rfl

/-- The per-team fix on a store whose attendance was replaced: the
guard and the generated rows only read the members, teams and events
tables, so they are those of the base store. -/
theorem fixTeamDistribution_att_eq (s : Store) (teamName : String)
    (eventsData : List (String × Nat)) (pyHash : String → Nat)
    (x : List AttendanceRecord)
    (hg : ¬((activeTeamMembersSorted s teamName).length ≠ 5)) :
    fixTeamDistribution { s with attendance := x } teamName eventsData
        pyHash =
      { s with attendance :=
          x.filter (fun a => !(refsTeamMember s teamName a)) ++
          fifthGenRows s teamName eventsData pyHash } := by
  unfold fixTeamDistribution
  rw [if_neg (show ¬((activeTeamMembersSorted { s with attendance := x }
      teamName).length ≠ 5) from hg)]
  rfl

theorem mem_fifthEventRows {sortedMembers : List (Nat × String)}
    {eid K seedVal eventIdx : Nat} {r : AttendanceRecord}
    (hr : r ∈ fifthEventRows sortedMembers eid K seedVal eventIdx) :
    ∃ mp ∈ sortedMembers, r.memberId = some mp.1 := by
  unfold fifthEventRows at hr
  by_cases hK : K > 0
  · rw [if_pos hK] at hr
    simp only at hr
    obtain ⟨mp, hmp, rfl⟩ := List.mem_map.mp hr
    exact ⟨mp, hmp, rfl⟩
  · rw [if_neg hK] at hr
    obtain ⟨mp, hmp, rfl⟩ := List.mem_map.mp hr
    exact ⟨mp, hmp, rfl⟩

theorem fifthGenRows_refsTeam (s : Store) (teamName : String)
    (eventsData : List (String × Nat)) (pyHash : String → Nat)
    {r : AttendanceRecord}
    (hr : r ∈ fifthGenRows s teamName eventsData pyHash) :
    refsTeamMember s teamName r = true := by
  unfold fifthGenRows at hr
  obtain ⟨bl, hbl, hrbl⟩ := List.mem_flatten.mp hr
  obtain ⟨p, _, rfl⟩ := List.mem_map.mp hbl
  rcases hEv : eventIdByName s p.2.1 with _ | eid
  · simp only [hEv] at hrbl
    cases hrbl
  · simp only [hEv] at hrbl
    by_cases h0 : eid = 0
    · rw [if_pos h0] at hrbl
      cases hrbl
    · rw [if_neg h0] at hrbl
      obtain ⟨mp, hmp, hmid⟩ := mem_fifthEventRows hrbl
      have hmp2 : mp ∈ (s.members.filter (fun m =>
          m.isActive && s.teams.any (fun t =>
            t.id == m.teamId && t.name == teamName))).map
          (fun m => (m.id, m.name)) := by
        rw [← sortRoster_mem]
        exact hmp
      obtain ⟨m, hm, rfl⟩ := List.mem_map.mp hmp2
      obtain ⟨hmmem, hmpred⟩ := List.mem_filter.mp hm
      have hstep : refsTeamMember s teamName r =
          s.members.any (fun mm => mm.id == m.id &&
            s.teams.any (fun t => t.id == mm.teamId &&
              t.name == teamName)) := by
        unfold refsTeamMember
        rw [hmid]
      rw [hstep, List.any_eq_true]
      refine ⟨m, hmmem, ?_⟩
      rw [Bool.and_eq_true, beq_iff_eq]
      rw [Bool.and_eq_true] at hmpred
      exact ⟨rfl, hmpred.2⟩

/-- C6 amended: the per-team fix deletes every attendance row
referencing any of the team's members — including override-sourced
rows and rows of other events — and re-inserts only the CSV events'
rows; rows that do not reference the team's members survive; with the
process hash fixed, running the fix twice equals running it once. -/
theorem c6_amended_scope_idempotence (s : Store) (teamName : String)
    (eventsData : List (String × Nat)) (pyHash : String → Nat) :
    (∀ a ∈ s.attendance, refsTeamMember s teamName a = false →
      a ∈ (fixTeamDistribution s teamName eventsData pyHash).attendance) ∧
    fixTeamDistribution (fixTeamDistribution s teamName eventsData pyHash)
        teamName eventsData pyHash =
      fixTeamDistribution s teamName eventsData pyHash := by
  constructor
  · intro a ha href
    unfold fixTeamDistribution
    by_cases hg : (activeTeamMembersSorted s teamName).length ≠ 5
    · rw [if_pos hg]
      exact ha
    · rw [if_neg hg]
      apply List.mem_append_left
      rw [List.mem_filter]
      exact ⟨ha, by rw [href]; rfl⟩
  · by_cases hg : (activeTeamMembersSorted s teamName).length ≠ 5
    · unfold fixTeamDistribution
      rw [if_pos hg, if_pos hg]
    · have hstep1 : fixTeamDistribution s teamName eventsData pyHash =
          { s with attendance :=
              (List.filter (fun a => !(refsTeamMember s teamName a))
                  s.attendance) ++
                fifthGenRows s teamName eventsData pyHash } := by
        unfold fixTeamDistribution
        rw [if_neg hg]
      rw [hstep1, fixTeamDistribution_att_eq s teamName eventsData pyHash
        _ hg]
      have hfnew : (fifthGenRows s teamName eventsData pyHash).filter
          (fun a => !(refsTeamMember s teamName a)) = [] := by
        rw [List.filter_eq_nil_iff]
        intro a ha
        rw [fifthGenRows_refsTeam s teamName eventsData pyHash ha]
        simp
      have hkept : (s.attendance.filter
          (fun a => !(refsTeamMember s teamName a))).filter
          (fun a => !(refsTeamMember s teamName a)) =
          s.attendance.filter (fun a => !(refsTeamMember s teamName a)) := by
        rw [List.filter_filter]
        apply List.filter_congr
        intro a _
        cases refsTeamMember s teamName a <;> rfl
      rw [List.filter_append, hkept, hfnew, List.append_nil]

/-- Witness for the amended C6 on a concrete store: the non-team row
survives and the fix is idempotent. -/
theorem c6_amended_scope_idempotence_witness :
    c6KeepRow ∈ (fixTeamDistribution c6Store2 "T" [("E1", 1)]
      (fun _ => 0)).attendance ∧
    fixTeamDistribution (fixTeamDistribution c6Store2 "T" [("E1", 1)]
        (fun _ => 0)) "T" [("E1", 1)] (fun _ => 0) =
      fixTeamDistribution c6Store2 "T" [("E1", 1)] (fun _ => 0) :=
  ⟨(c6_amended_scope_idempotence c6Store2 "T" [("E1", 1)] (fun _ => 0)).1
      c6KeepRow (by decide) (by decide),
    (c6_amended_scope_idempotence c6Store2 "T" [("E1", 1)] (fun _ => 0)).2⟩

/-! ## C5 amended: the CHECK constraint is preserved -/

theorem foldl_preserve {α : Type} (f : Store → α → Store)
    (P : Store → Prop) (hf : ∀ st x, P st → P (f st x)) :
    ∀ (xs : List α) (st : Store), P st → P (xs.foldl f st) := by
  intro xs
  induction xs with
  | nil => intro st h; exact h
  | cons x xt ih => intro st h; exact ih _ (hf st x h)

theorem refsTeamMember_memberId {s : Store} {tn : String}
    {r : AttendanceRecord} (h : refsTeamMember s tn r = true) :
    r.memberId ≠ none := by
  intro hnone
  unfold refsTeamMember at h
  rw [hnone] at h
  cases h

theorem checkMemberOrCoach_of_member {a : AttendanceRecord}
    (h : a.memberId ≠ none) : checkMemberOrCoach a = true := by
  unfold checkMemberOrCoach
  cases hm : a.memberId with
  | none => exact absurd hm h
  | some x => simp

theorem checkMemberOrCoach_of_coach {a : AttendanceRecord}
    (h : a.coachId ≠ none) : checkMemberOrCoach a = true := by
  unfold checkMemberOrCoach
  cases hc : a.coachId with
  | none => exact absurd hc h
  | some x => simp

/-- C5 amended: every embedded insertion path — the two recording
services, the CSV import, the per-team reconciliation fix and the
coach-scoring rebuild — preserves the attendance CHECK constraint
(member_id or coach_id non-null); the exactly-one-of and at-most-one-
per-pair parts of the original claim fail (see the counterexample). -/
theorem c5_amended_check_preserved (s : Store)
    (hs : ∀ a ∈ s.attendance, checkMemberOrCoach a = true) :
    (∀ eid xs rb,
      ∀ a ∈ (record_member_attendance s eid xs rb).2.attendance,
        checkMemberOrCoach a = true) ∧
    (∀ eid xs rb,
      ∀ a ∈ (record_coach_attendance s eid xs rb).2.attendance,
        checkMemberOrCoach a = true) ∧
    (∀ rows, ∀ a ∈ (import_attendance_data s rows).attendance,
      checkMemberOrCoach a = true) ∧
    (∀ tn evd ph, ∀ a ∈ (fixTeamDistribution s tn evd ph).attendance,
      checkMemberOrCoach a = true) ∧
    (∀ sr mr, ∀ a ∈ (fix_coach_scoring s sr mr).attendance,
      checkMemberOrCoach a = true) := by
  refine ⟨?_, ?_, ?_, ?_, ?_⟩
  · intro eid xs rb a ha
    unfold record_member_attendance at ha
    rcases hf : s.events.find? (fun ev => ev.id == eid) with _ | e
    · rw [hf] at ha
      exact hs a ha
    · rw [hf] at ha
      simp only at ha
      rw [congrArg Store.attendance (foldl_insertOrReplace_append
        (fun (p : Nat × Bool) =>
          { eventId := eid, memberId := some p.1, coachId := none,
            attended := p.2,
            pointsEarned := if p.2 then e.memberPointsPerAttendance else 0,
            recordedBy := rb }) (fun p => Or.inr rfl) xs s)] at ha
      rcases List.mem_append.mp ha with h | h
      · exact hs a h
      · obtain ⟨p, _, rfl⟩ := List.mem_map.mp h
        exact checkMemberOrCoach_of_member (by simp)
  · intro eid xs rb a ha
    unfold record_coach_attendance at ha
    rcases hf : s.events.find? (fun ev => ev.id == eid) with _ | e
    · rw [hf] at ha
      exact hs a ha
    · rw [hf] at ha
      simp only at ha
      rw [congrArg Store.attendance (foldl_insertOrReplace_append
        (coachRow eid e.coachPointsPerAttendance rb)
        (fun p => Or.inl rfl) xs s)] at ha
      rcases List.mem_append.mp ha with h | h
      · exact hs a h
      · obtain ⟨p, _, rfl⟩ := List.mem_map.mp h
        exact checkMemberOrCoach_of_coach (by simp [coachRow])
  · intro rows a ha
    unfold import_attendance_data at ha
    have hstep : ∀ (st : Store) (r : RawAttendanceRow),
        (∀ b ∈ st.attendance, checkMemberOrCoach b = true) →
        ∀ b ∈ (importStep st r).attendance,
          checkMemberOrCoach b = true := by
      intro st r hst b hb
      unfold importStep at hb
      by_cases h1 : r.memberId = none ∧ r.coachId = none
      · rw [if_pos h1] at hb
        exact hst b hb
      · rw [if_neg h1] at hb
        by_cases h2 : (st.attendance.any (fun bb => uniqueConflict bb
            { eventId := r.eventId, memberId := r.memberId,
              coachId := r.coachId, attended := r.attended,
              pointsEarned := r.pointsEarned,
              recordedBy := r.recordedBy })) = true
        · rw [if_pos h2] at hb
          exact hst b hb
        · rw [if_neg h2] at hb
          rcases List.mem_append.mp hb with h | h
          · exact hst b h
          · rcases List.mem_singleton.mp h with rfl
            rcases not_and_or.mp h1 with hm | hc
            · exact checkMemberOrCoach_of_member hm
            · exact checkMemberOrCoach_of_coach hc
    have hs1 : ∀ b ∈ (match rows.head? with
        | some r0 =>
          if r0.eventId ≠ 0 then
            { s with attendance :=
                s.attendance.filter (fun a => !(a.eventId == r0.eventId)) }
          else s
        | none => s).attendance, checkMemberOrCoach b = true := by
      rcases rows.head? with _ | r0
      · exact hs
      · show ∀ b ∈ (if r0.eventId ≠ 0 then
            { s with attendance :=
                s.attendance.filter (fun a => !(a.eventId == r0.eventId)) }
          else s).attendance, checkMemberOrCoach b = true
        by_cases h0 : r0.eventId ≠ 0
        · rw [if_pos h0]
          intro b hb
          exact hs b (List.mem_of_mem_filter hb)
        · rw [if_neg h0]
          exact hs
    exact foldl_preserve _ (fun st =>
      ∀ b ∈ st.attendance, checkMemberOrCoach b = true) hstep rows _ hs1 a ha
  · intro tn evd ph a ha
    unfold fixTeamDistribution at ha
    by_cases hg : (activeTeamMembersSorted s tn).length ≠ 5
    · rw [if_pos hg] at ha
      exact hs a ha
    · rw [if_neg hg] at ha
      rcases List.mem_append.mp ha with h | h
      · exact hs a (List.mem_of_mem_filter h)
      · exact checkMemberOrCoach_of_member
          (refsTeamMember_memberId (fifthGenRows_refsTeam s tn evd ph h))
  · intro sr mr a ha
    unfold fix_coach_scoring at ha
    rcases List.mem_append.mp ha with h | h
    · exact hs a (List.mem_of_mem_filter h)
    · obtain ⟨kv, _, hkv⟩ := List.mem_filterMap.mp h
      by_cases hk : kv.2 > 0
      · rw [if_pos hk] at hkv
        rcases hc : coachIdByName s kv.1.1 with _ | cid
        · simp only [hc] at hkv
          cases hkv
        · rcases he : eventIdByName s kv.1.2 with _ | eid
          · simp only [hc, he] at hkv
            cases hkv
          · simp only [hc, he] at hkv
            by_cases h0 : cid ≠ 0 ∧ eid ≠ 0
            · rw [if_pos h0] at hkv
              cases hkv
              exact checkMemberOrCoach_of_coach (by simp [coachFixRow])
            · rw [if_neg h0] at hkv
              cases hkv
      · rw [if_neg hk] at hkv
        cases hkv

/-- Witness for the amended C5: a row written by the member recording
service satisfies the CHECK constraint. -/
theorem c5_amended_check_preserved_witness :
    checkMemberOrCoach
      { eventId := 1, memberId := some 1, coachId := none,
        attended := true, pointsEarned := 1, recordedBy := "Admin" } = true :=
  (c5_amended_check_preserved c5Store (by decide)).1 1 [(1, true)] "Admin"
    _ (by decide)

/-! ## C8: coach attendance rebuild -/

/-- C8 counterexample: two teams of coach C report attendance at event
E whose coach_points_per_attendance is 3; the rebuild writes exactly
one row for the (event, coach) pair, but its points_earned is the
hardcoded 2, not the event's coach rate 3. -/
theorem c8_counterexample :
    (fix_coach_scoring c8Store c8Csv c8Master).attendance =
      [{ eventId := 5, memberId := none, coachId := some 4,
         attended := true, pointsEarned := 2,
         recordedBy := "Coach Fix System" }] ∧
    (c8Store.events.find? (fun e => e.id == 5)).map
      (fun e => e.coachPointsPerAttendance) = some 3 := by
  decide

/-- A reversed-list name lookup returning ids is injective on
resolvable names when the ids are Nodup. -/
theorem reverse_find_key_inj {α : Type} (key : α → Nat) (nm : α → String)
    (l : List α) (hids : (l.map key).Nodup) {n1 n2 : String} {i : Nat}
    (h1 : (l.reverse.find? (fun c => nm c == n1)).map key = some i)
    (h2 : (l.reverse.find? (fun c => nm c == n2)).map key = some i) :
    n1 = n2 := by
  rcases hf1 : l.reverse.find? (fun c => nm c == n1) with _ | c1
  · rw [hf1] at h1
    cases h1
  · rcases hf2 : l.reverse.find? (fun c => nm c == n2) with _ | c2
    · rw [hf2] at h2
      cases h2
    · rw [hf1] at h1
      rw [hf2] at h2
      have hk1 : key c1 = i := Option.some.inj h1
      have hk2 : key c2 = i := Option.some.inj h2
      have hm1 : c1 ∈ l :=
        List.mem_reverse.mp (List.mem_of_find?_eq_some hf1)
      have hm2 : c2 ∈ l :=
        List.mem_reverse.mp (List.mem_of_find?_eq_some hf2)
      have hceq : c1 = c2 :=
        List.inj_on_of_nodup_map hids hm1 hm2 (by rw [hk1, hk2])
      have hn1 := List.find?_some hf1
      have hn2 := List.find?_some hf2
      rw [beq_iff_eq] at hn1 hn2
      rw [← hn1, ← hn2, hceq]

theorem insertIfAbsent_keys_nodup (cn : String) :
    ∀ (counts : List (String × Nat))
      (acc : List ((String × String) × Nat)),
      (acc.map Prod.fst).Nodup →
      ((counts.foldl (fun acc2 ec =>
        if acc2.any (fun kv => kv.1 == (cn, ec.1)) then acc2
        else acc2 ++ [((cn, ec.1), ec.2)]) acc).map Prod.fst).Nodup := by
  intro counts
  induction counts with
  | nil => intro acc h; exact h
  | cons ec rest ih =>
    intro acc h
    simp only [List.foldl_cons]
    by_cases hany : (acc.any (fun kv => kv.1 == (cn, ec.1))) = true
    · rw [if_pos hany]
      exact ih acc h
    · rw [if_neg hany]
      apply ih
      rw [List.map_append]
      simp only [List.map_cons, List.map_nil]
      rw [List.nodup_append]
      refine ⟨h, List.nodup_singleton _, ?_⟩
      intro x hx hx2
      rw [List.mem_singleton] at hx2
      subst hx2
      obtain ⟨kv, hkv, hkeq⟩ := List.mem_map.mp hx
      have hfalse := List.any_eq_false.mp (Bool.not_eq_true _ ▸ hany) kv hkv
      exact hfalse (by rw [hkeq]; exact beq_self_eq_true _)

theorem buildCoachEventDict_keys_nodup (scoreRows : List ScoreCsvRow)
    (master : List MasterRow) :
    ((buildCoachEventDict scoreRows master).map Prod.fst).Nodup := by
  unfold buildCoachEventDict
  have hfold : ∀ (rows : List ScoreCsvRow)
      (acc : List ((String × String) × Nat)),
      (acc.map Prod.fst).Nodup →
      ((rows.foldl (fun acc row =>
        match master.find? (fun m => m.teamName == row.teamName) with
        | none => acc
        | some mrow => row.counts.foldl (fun acc2 ec =>
            if acc2.any (fun kv => kv.1 == (mrow.coachName, ec.1)) then acc2
            else acc2 ++ [((mrow.coachName, ec.1), ec.2)]) acc)
        acc).map Prod.fst).Nodup := by
    intro rows
    induction rows with
    | nil => intro acc h; exact h
    | cons row rest ih =>
      intro acc h
      simp only [List.foldl_cons]
      rcases hm : master.find? (fun m => m.teamName == row.teamName)
        with _ | mrow
      · simp only [hm]
        exact ih acc h
      · simp only [hm]
        exact ih _ (insertIfAbsent_keys_nodup mrow.coachName row.counts acc h)
  exact hfold scoreRows [] (by simp)

theorem coachFixRows_pairs_nodup (s : Store)
    (hcids : (s.coaches.map (fun c => c.id)).Nodup)
    (heids : (s.events.map (fun e => e.id)).Nodup) :
    ∀ (d : List ((String × String) × Nat)), (d.map Prod.fst).Nodup →
      ((coachFixRows s d).filterMap (fun r =>
        r.coachId.map (fun c => (r.eventId, c)))).Nodup := by
  intro d
  induction d with
  | nil =>
    intro _
    simp [coachFixRows]
  | cons kv rest ih =>
    intro hnd
    simp only [List.map_cons, List.nodup_cons] at hnd
    obtain ⟨hknotin, hndrest⟩ := hnd
    unfold coachFixRows
    rw [List.filterMap_cons]
    by_cases hk : kv.2 > 0
    · rw [if_pos hk]
      rcases hc : coachIdByName s kv.1.1 with _ | cid
      · simp only [hc]
        exact ih hndrest
      · rcases he : eventIdByName s kv.1.2 with _ | eid
        · simp only [hc, he]
          exact ih hndrest
        · simp only [hc, he]
          by_cases h0 : cid ≠ 0 ∧ eid ≠ 0
          · rw [if_pos h0]
            show ((eid, cid) :: (coachFixRows s rest).filterMap (fun r =>
              r.coachId.map (fun c => (r.eventId, c)))).Nodup
            rw [List.nodup_cons]
            refine ⟨?_, ih hndrest⟩
            intro hmem
            obtain ⟨r, hr, hproj⟩ := List.mem_filterMap.mp hmem
            obtain ⟨kv2, hkv2, hf2⟩ := List.mem_filterMap.mp hr
            by_cases hk2 : kv2.2 > 0
            · rw [if_pos hk2] at hf2
              rcases hc2 : coachIdByName s kv2.1.1 with _ | cid2
              · simp only [hc2] at hf2
                cases hf2
              · rcases he2 : eventIdByName s kv2.1.2 with _ | eid2
                · simp only [hc2, he2] at hf2
                  cases hf2
                · simp only [hc2, he2] at hf2
                  by_cases h02 : cid2 ≠ 0 ∧ eid2 ≠ 0
                  · rw [if_pos h02] at hf2
                    cases hf2
                    have hpair : (eid2, cid2) = (eid, cid) :=
                      Option.some.inj hproj
                    have heq2 : eid2 = eid := congrArg Prod.fst hpair
                    have hceq2 : cid2 = cid := congrArg Prod.snd hpair
                    have hc2' : (s.coaches.reverse.find?
                        (fun c => c.name == kv2.1.1)).map (fun c => c.id) =
                        some cid := by
                      rw [← hceq2]
                      exact hc2
                    have hc1' : (s.coaches.reverse.find?
                        (fun c => c.name == kv.1.1)).map (fun c => c.id) =
                        some cid := hc
                    have he2' : (s.events.reverse.find?
                        (fun e => e.name == kv2.1.2)).map (fun e => e.id) =
                        some eid := by
                      rw [← heq2]
                      exact he2
                    have he1' : (s.events.reverse.find?
                        (fun e => e.name == kv.1.2)).map (fun e => e.id) =
                        some eid := he
                    have hcn : kv2.1.1 = kv.1.1 :=
                      reverse_find_key_inj (fun c => c.id) (fun c => c.name)
                        s.coaches hcids hc2' hc1'
                    have hen : kv2.1.2 = kv.1.2 :=
                      reverse_find_key_inj (fun e => e.id) (fun e => e.name)
                        s.events heids he2' he1'
                    have hkeyeq : kv2.1 = kv.1 := Prod.ext hcn hen
                    exact hknotin (hkeyeq ▸ List.mem_map_of_mem Prod.fst hkv2)
                  · rw [if_neg h02] at hf2
                    cases hf2
            · rw [if_neg hk2] at hf2
              cases hf2
          · rw [if_neg h0]
            exact ih hndrest
    · rw [if_neg hk]
      exact ih hndrest

/-- C8 amended: after the coach-attendance rebuild, at most one
attendance row exists per (event, coach) pair regardless of how many
teams the coach manages, and every rebuilt coach row carries the
hardcoded 2 points (the system default coach rate) with attended =
true — not the event's configured coach_points_per_attendance and
never N times it. -/
theorem c8_amended_rebuild (s : Store) (scoreRows : List ScoreCsvRow)
    (master : List MasterRow)
    (hcids : (s.coaches.map (fun c => c.id)).Nodup)
    (heids : (s.events.map (fun e => e.id)).Nodup) :
    (∀ r ∈ (fix_coach_scoring s scoreRows master).attendance,
      r.coachId ≠ none →
        r.pointsEarned = 2 ∧ r.attended = true ∧
          r.recordedBy = "Coach Fix System") ∧
    ((fix_coach_scoring s scoreRows master).attendance.filterMap
      (fun r => r.coachId.map (fun c => (r.eventId, c)))).Nodup := by
  constructor
  · intro r hr hrc
    unfold fix_coach_scoring at hr
    rcases List.mem_append.mp hr with h | h
    · have hcn := List.of_mem_filter h
      rw [beq_iff_eq] at hcn
      exact absurd hcn hrc
    · obtain ⟨kv, _, hkv⟩ := List.mem_filterMap.mp h
      by_cases hk : kv.2 > 0
      · rw [if_pos hk] at hkv
        rcases hc : coachIdByName s kv.1.1 with _ | cid
        · simp only [hc] at hkv
          cases hkv
        · rcases he : eventIdByName s kv.1.2 with _ | eid
          · simp only [hc, he] at hkv
            cases hkv
          · simp only [hc, he] at hkv
            by_cases h0 : cid ≠ 0 ∧ eid ≠ 0
            · rw [if_pos h0] at hkv
              cases hkv
              exact ⟨rfl, rfl, rfl⟩
            · rw [if_neg h0] at hkv
              cases hkv
      · rw [if_neg hk] at hkv
        cases hkv
  · unfold fix_coach_scoring
    show ((s.attendance.filter (fun a => a.coachId == none) ++
      coachFixRows s (buildCoachEventDict scoreRows master)).filterMap
      (fun r => r.coachId.map (fun c => (r.eventId, c)))).Nodup
    rw [List.filterMap_append]
    have hleft : (s.attendance.filter
        (fun a => a.coachId == none)).filterMap
        (fun r => r.coachId.map (fun c => (r.eventId, c))) = [] := by
      rw [List.filterMap_eq_nil_iff]
      intro a ha
      have hcn := List.of_mem_filter ha
      rw [beq_iff_eq] at hcn
      rw [hcn]
      rfl
    rw [hleft, List.nil_append]
    exact coachFixRows_pairs_nodup s hcids heids _
      (buildCoachEventDict_keys_nodup scoreRows master)

/-- Witness for the amended C8 on the concrete rebuild: the resulting
(event, coach) pairs are duplicate-free. -/
theorem c8_amended_rebuild_witness :
    ((fix_coach_scoring c8Store c8Csv c8Master).attendance.filterMap
      (fun r => r.coachId.map (fun c => (r.eventId, c)))).Nodup :=
  (c8_amended_rebuild c8Store c8Csv c8Master (by decide) (by decide)).2

end Cirqit
